import Mathlib

/-!
Verification of the message-stanza codec in `src/base/QXmppMessage.cpp`
(qxmpp).  The development shallowly embeds the codec: the XML element tree
that `QXmppMessage::parse` consumes is modelled by `XNode`, the serialized
byte output of `QXmppMessage::toXml` is modelled as a `String`, and the
message value itself by the structure `QXmppMessage`.  Collaborators that
are not part of the source under verification (QXmppUtils date helpers,
QXmppStanza base fields, QXmppConstants namespace URIs, QXmppElement
opaque copies) are modelled from the specification and are marked as such
in their doc comments.
-/

set_option maxRecDepth 4000

namespace QXmpp

/-! ## Namespace constants

Modelled from the spec: one namespace-URI constant per micro-protocol
(`QXmppConstants.h` is not part of the source under `src/`); the values are
the standard XEP namespace URIs.  `ns_xhtml` appears literally in
`QXmppMessage.cpp`. -/

def ns_chat_states : String := "http://jabber.org/protocol/chatstates"

def ns_xhtml : String := "http://www.w3.org/1999/xhtml"

def ns_xhtml_im : String := "http://jabber.org/protocol/xhtml-im"

def ns_message_receipts : String := "urn:xmpp:receipts"

def ns_delayed_delivery : String := "urn:xmpp:delay"

def ns_legacy_delayed_delivery : String := "jabber:x:delay"

def ns_attention : String := "urn:xmpp:attention"

/-! ## Character-list utilities

These model the `QString` operations used by the codec (`indexOf`/`mid`,
`replace`, `trimmed`) on the character list underlying a string. -/

/-- Does `pat` occur at the very start of `s`? -/
def startsWithL : List Char → List Char → Bool
  | [], _ => true
  | _ :: _, [] => false
  | p :: ps, c :: cs => p == c && startsWithL ps cs

/-- Does `pat` occur anywhere in `s`? -/
def occursL (pat : List Char) : List Char → Bool
  | [] => startsWithL pat []
  | c :: cs => startsWithL pat (c :: cs) || occursL pat cs

/-- Replace every (non-overlapping, left-to-right) occurrence of `pat` by
`rep`, as `QString::replace` does.  The `skip` counter carries how many
characters of a just-matched pattern remain to be consumed. -/
def replaceGo (pat rep : List Char) : List Char → Nat → List Char
  | [], _ => []
  | c :: cs, 0 =>
    if startsWithL pat (c :: cs) && !pat.isEmpty then
      rep ++ replaceGo pat rep cs (pat.length - 1)
    else
      c :: replaceGo pat rep cs 0
  | _ :: cs, skip + 1 => replaceGo pat rep cs skip

/-- `QString::replace(pat, rep)` on the underlying character list. -/
def replaceAllL (s pat rep : List Char) : List Char :=
  replaceGo pat rep s 0

/-- The tail of `s` strictly after the first occurrence of `c`, if any.
Models `s.mid(s.indexOf(c) + 1)` (together with `midAfter`). -/
def dropThroughChar (c : Char) : List Char → Option (List Char)
  | [] => none
  | x :: xs => if x == c then some xs else dropThroughChar c xs

/-- `s.mid(s.indexOf(c) + 1)`: when `c` does not occur, `indexOf` is `-1`
and `mid(0)` returns the whole string. -/
def midAfter (c : Char) (s : List Char) : List Char :=
  match dropThroughChar c s with
  | some r => r
  | none => s

/-- `QChar::isSpace`, modelled as ordinary whitespace. -/
def qIsSpace (c : Char) : Bool := c.isWhitespace

/-- `QString::trimmed` on the underlying character list. -/
def trimL (s : List Char) : List Char :=
  ((s.dropWhile qIsSpace).reverse.dropWhile qIsSpace).reverse

/-! ## Decimal digits and date-time values -/

/-- The decimal digit character for `n % 10`. -/
def digitChar (n : Nat) : Char := Char.ofNat (48 + n % 10)

/-- The numeric value of a decimal digit character, if it is one. -/
def digitVal (c : Char) : Option Nat :=
  if 48 ≤ c.toNat && c.toNat ≤ 57 then some (c.toNat - 48) else none

/-- Two-digit decimal rendering of `n % 100` (format letter pair `MM`, `dd`,
`hh`, `mm` or `ss`). -/
def pad2 (n : Nat) : List Char := [digitChar (n / 10), digitChar n]

/-- Four-digit decimal rendering of `n % 10000` (format letters `yyyy`). -/
def pad4 (n : Nat) : List Char :=
  [digitChar (n / 1000), digitChar (n / 100), digitChar (n / 10), digitChar n]

/-- Read a two-digit decimal number. -/
def read2 (a b : Char) : Option Nat :=
  match digitVal a, digitVal b with
  | some x, some y => some (x * 10 + y)
  | _, _ => none

/-- Read a four-digit decimal number. -/
def read4 (a b c d : Char) : Option Nat :=
  match digitVal a, digitVal b, digitVal c, digitVal d with
  | some x, some y, some z, some w => some (x * 1000 + y * 100 + z * 10 + w)
  | _, _, _, _ => none

/-- A UTC instant at second precision, as carried by a valid `QDateTime`
whose time spec is `Qt::UTC`. -/
structure UtcDT where
  year : Nat
  month : Nat
  day : Nat
  hour : Nat
  minute : Nat
  second : Nat
deriving DecidableEq

/-- Gregorian leap-year rule, as used by `QDate`. -/
def isLeapYear (y : Nat) : Bool :=
  (y % 4 == 0 && y % 100 != 0) || y % 400 == 0

/-- Number of days of month `m` of year `y`. -/
def daysInMonth (y m : Nat) : Nat :=
  if m == 2 then (if isLeapYear y then 29 else 28)
  else if m == 4 || m == 6 || m == 9 || m == 11 then 30
  else 31

/-- Calendar validity, as checked by `QDateTime` when parsing. -/
def validDT (t : UtcDT) : Bool :=
  1 ≤ t.year && t.year ≤ 9999 &&
  1 ≤ t.month && t.month ≤ 12 &&
  1 ≤ t.day && t.day ≤ daysInMonth t.year t.month &&
  t.hour < 24 && t.minute < 60 && t.second < 60

/-- The fixed legacy pattern `yyyyMMddThh:mm:ss` used by
`QDateTime::fromString` / `toString` in the XEP-0091 branches. -/
def legacyStampChars (t : UtcDT) : List Char :=
  pad4 t.year ++ pad2 t.month ++ pad2 t.day ++ ['T'] ++
  pad2 t.hour ++ [':'] ++ pad2 t.minute ++ [':'] ++ pad2 t.second

/-- `utcStamp.toString("yyyyMMddThh:mm:ss")`. -/
def legacyStampString (t : UtcDT) : String := String.mk (legacyStampChars t)

/-- `QDateTime::fromString(str, "yyyyMMddThh:mm:ss")` followed by
`setTimeSpec(Qt::UTC)`: an exact match of the pattern yielding a valid
calendar date, else the invalid datetime (modelled `none`). -/
def legacyStampParse (s : String) : Option UtcDT :=
  match s.data with
  | [y1, y2, y3, y4, mo1, mo2, d1, d2, 'T', h1, h2, ':', mi1, mi2, ':', s1, s2] =>
    match read4 y1 y2 y3 y4, read2 mo1 mo2, read2 d1 d2,
          read2 h1 h2, read2 mi1 mi2, read2 s1 s2 with
    | some y, some mo, some d, some h, some mi, some ss =>
      let t : UtcDT := ⟨y, mo, d, h, mi, ss⟩
      if validDT t then some t else none
    | _, _, _, _, _, _ => none
  | _ => none

/-- Modelled from the spec: `QXmppUtils::datetimeToString` (QXmppUtils.cpp
is not part of the source under `src/`) renders the protocol standard
datetime format, UTC-normalized: `yyyy-MM-ddThh:mm:ssZ`. -/
def datetimeToString (t : UtcDT) : String :=
  String.mk (pad4 t.year ++ ['-'] ++ pad2 t.month ++ ['-'] ++ pad2 t.day ++ ['T'] ++
             pad2 t.hour ++ [':'] ++ pad2 t.minute ++ [':'] ++ pad2 t.second ++ ['Z'])

/-- Modelled from the spec: `QXmppUtils::datetimeFromString` (QXmppUtils.cpp
is not part of the source under `src/`) parses the protocol standard
datetime format; an unparseable value yields the invalid datetime
(modelled `none`). -/
def datetimeFromString (s : String) : Option UtcDT :=
  match s.data with
  | [y1, y2, y3, y4, '-', mo1, mo2, '-', d1, d2, 'T', h1, h2, ':', mi1, mi2, ':', s1, s2, 'Z'] =>
    match read4 y1 y2 y3 y4, read2 mo1 mo2, read2 d1 d2,
          read2 h1 h2, read2 mi1 mi2, read2 s1 s2 with
    | some y, some mo, some d, some h, some mi, some ss =>
      let t : UtcDT := ⟨y, mo, d, h, mi, ss⟩
      if validDT t then some t else none
    | _, _, _, _, _, _ => none
  | _ => none

/-! ## XML element trees

`XNode` models the generic XML tree the codec exchanges with its
collaborators: a `QDomElement` with local tag name, namespace URI,
attributes in document order and child nodes in document order.  A `raw`
node carries a pre-serialized markup fragment in canonical serialized form
(used to model the XHTML body content, which the encoder injects as raw
bytes and the DOM serializer reproduces verbatim). -/

inductive XNode : Type where
  | elem (tag ns : String) (attrs : List (String × String)) (children : List XNode) : XNode
  | text (s : String) : XNode
  | raw (s : String) : XNode

namespace XNode

/-- Is this node an element node? -/
def isElem : XNode → Bool
  | .elem _ _ _ _ => true
  | _ => false

/-- `QDomElement::tagName` (empty for non-elements). -/
def tag : XNode → String
  | .elem t _ _ _ => t
  | _ => ""

/-- `QDomElement::namespaceURI` (empty for non-elements). -/
def ns : XNode → String
  | .elem _ n _ _ => n
  | _ => ""

/-- The attribute list of an element node. -/
def attrs : XNode → List (String × String)
  | .elem _ _ a _ => a
  | _ => []

/-- The child list of an element node. -/
def children : XNode → List XNode
  | .elem _ _ _ c => c
  | _ => []

end XNode

/-- `QDomElement::attribute(name)`: the value of the first attribute with
that name, or the empty string. -/
def attrOf (n : XNode) (name : String) : String :=
  match n.attrs.find? (fun p => p.1 == name) with
  | some p => p.2
  | none => ""

/-- The first child element with the given tag name, among a child list.
`QDomElement::firstChildElement(t)` matches on the tag name only; the
namespace is checked separately by the caller. -/
def findTag (l : List XNode) (t : String) : Option XNode :=
  l.find? (fun c => c.isElem && c.tag == t)

/-- `QDomElement::firstChildElement(t)` on an element node. -/
def firstChildElem (n : XNode) (t : String) : Option XNode :=
  findTag n.children t

/-- The element children with tag name `x`, in document order: the list
visited by the `firstChildElement("x")` / `nextSiblingElement("x")` loop. -/
def xChildrenOf (n : XNode) : List XNode :=
  n.children.filter (fun c => c.isElem && c.tag == "x")

/-- The element children of a node, in document order. -/
def childElems (n : XNode) : List XNode :=
  n.children.filter (fun c => c.isElem)

mutual

/-- `QDomElement::text()`: the concatenated text content of the subtree.
Raw nodes model pre-serialized markup inside the XHTML body, whose text
content the codec never reads. -/
def textContent : XNode → String
  | .elem _ _ _ cs => textContentList cs
  | .text s => s
  | .raw _ => ""

def textContentList : List XNode → String
  | [] => ""
  | c :: cs => textContent c ++ textContentList cs

end

/-- `text()` on the result of a `firstChildElement` lookup: a null element
has empty text. -/
def optText : Option XNode → String
  | some c => textContent c
  | none => ""

/-- `namespaceURI()` on the result of a `firstChildElement` lookup: a null
element has an empty namespace. -/
def nsOfOpt : Option XNode → String
  | some c => c.ns
  | none => ""

/-! ## Canonical serialization

The deterministic byte rendering of a tree, shared by the model of
`QDomElement::save` (used when the decoder extracts the XHTML body) and by
the model of `QXmppElement::toXml` (modelled from the spec: opaque
extension copies are emitted verbatim; QXmppElement.cpp is not part of the
source under `src/`). -/

/-- Escape of one character in text content (`&`, `<`, `>`). -/
def escTextChar (c : Char) : List Char :=
  if c == '&' then "&amp;".data
  else if c == '<' then "&lt;".data
  else if c == '>' then "&gt;".data
  else [c]

/-- Escape of one character in an attribute value. -/
def escAttrChar (c : Char) : List Char :=
  if c == '&' then "&amp;".data
  else if c == '<' then "&lt;".data
  else if c == '>' then "&gt;".data
  else if c == '"' then "&quot;".data
  else [c]

/-- Text-content escaping, as the XML writer performs on character data. -/
def escText (s : String) : String := String.mk ((s.data.map escTextChar).flatten)

/-- Attribute-value escaping, as the XML writer performs on attributes. -/
def escAttr (s : String) : String := String.mk ((s.data.map escAttrChar).flatten)

/-- One serialized attribute, including its leading space. -/
def attrStr (name value : String) : String :=
  " " ++ name ++ "=\"" ++ escAttr value ++ "\""

/-- Serialized attribute list, in stored order. -/
def saveAttrs : List (String × String) → String
  | [] => ""
  | p :: ps => attrStr p.1 p.2 ++ saveAttrs ps

mutual

/-- Canonical serialization of one node: the namespace URI is rendered as
a literal `xmlns` attribute directly after the tag name, an element with
no child nodes is self-closed, and raw nodes are emitted verbatim. -/
def saveNode : XNode → String
  | .elem t n as cs =>
    "<" ++ t ++ (if n == "" then "" else attrStr "xmlns" n) ++ saveAttrs as ++
    (if cs.isEmpty then "/>" else ">" ++ saveNodes cs ++ "</" ++ t ++ ">")
  | .text s => escText s
  | .raw s => s

/-- Canonical serialization of a node list, in order. -/
def saveNodes : List XNode → String
  | [] => ""
  | c :: cs => saveNode c ++ saveNodes cs

end

/-! ## Enums and tables -/

/-- `QXmppMessage::Type`, in the declaration order `Error = 0 .. Headline = 4`
implied by the `for (int i = Error; i <= Headline; i++)` loop. -/
inductive MsgType : Type where
  | Error
  | Normal
  | Chat
  | GroupChat
  | Headline
deriving DecidableEq

/-- The `message_types` array, as (enum value, wire string) pairs in index
order. -/
def message_types : List (MsgType × String) :=
  [(.Error, "error"), (.Normal, "normal"), (.Chat, "chat"),
   (.GroupChat, "groupchat"), (.Headline, "headline")]

/-- `message_types[m_type]`. -/
def messageTypeStr : MsgType → String
  | .Error => "error"
  | .Normal => "normal"
  | .Chat => "chat"
  | .GroupChat => "groupchat"
  | .Headline => "headline"

/-- `QXmppMessage::State`, index 0 being the absent sentinel `None`, in the
order of the `chat_states` array. -/
inductive ChatState : Type where
  | None
  | Active
  | Inactive
  | Gone
  | Composing
  | Paused
deriving DecidableEq

/-- The `chat_states` array entries `Active .. Paused`, as (enum value,
wire local name) pairs in the fixed scan order of the parse loop. -/
def chat_states : List (ChatState × String) :=
  [(.Active, "active"), (.Inactive, "inactive"), (.Gone, "gone"),
   (.Composing, "composing"), (.Paused, "paused")]

/-- `chat_states[m_state]`. -/
def chatStateStr : ChatState → String
  | .None => ""
  | .Active => "active"
  | .Inactive => "inactive"
  | .Gone => "gone"
  | .Composing => "composing"
  | .Paused => "paused"

/-- `QXmppMessage::StampType`: the wire encoding of the timestamp. -/
inductive StampType : Type where
  | DelayedDelivery
  | LegacyDelayedDelivery
deriving DecidableEq

/-! ## The message value -/

/-- The `QXmppMessage` value: its own fields plus the base-stanza fields
(`id`, `to`, `from`, `xml:lang`, error payload) that `QXmppStanza` owns.
The base fields and the error payload are modelled from the spec
(QXmppStanza.cpp is not part of the source under `src/`); the error
payload is modelled as a presence flag.  An invalid `QDateTime` is
modelled as `stamp = none`. -/
structure QXmppMessage where
  id : String
  to_ : String
  from_ : String
  lang : String
  hasError : Bool
  type : MsgType
  body : String
  subject : String
  thread : String
  state : ChatState
  xhtml : String
  stamp : Option UtcDT
  stampType : StampType
  receiptRequested : Bool
  receiptId : String
  attentionRequested : Bool
  extensions : List XNode

/-- The constructor `QXmppMessage::QXmppMessage(from, to, body, thread)`:
type `Chat`, stamp type `DelayedDelivery`, state `None`, no attention, no
receipt request; the remaining fields are default-initialized (empty
string, invalid datetime, empty extension list). -/
def QXmppMessage.construct (from_ to_ body thread : String) : QXmppMessage :=
  { id := "", to_ := to_, from_ := from_, lang := "", hasError := false,
    type := .Chat, body := body, subject := "", thread := thread,
    state := .None, xhtml := "", stamp := none,
    stampType := .DelayedDelivery, receiptRequested := false,
    receiptId := "", attentionRequested := false, extensions := [] }

/-- A default-constructed message, all constructor arguments empty. -/
def freshMessage : QXmppMessage := QXmppMessage.construct "" "" "" ""

/-- Modelled from the spec: `QXmppStanza::generateAndSetNextId` assigns a
fresh unique id (a generated non-empty string; the global uniqueness
counter lives in QXmppStanza.cpp, outside the source under `src/`). -/
def generateAndSetNextId (m : QXmppMessage) : QXmppMessage :=
  { m with id := "qxmpp1" }

/-- `QXmppMessage::setReceiptRequested`: records the flag, and if a receipt
is requested while the message has no id yet, assigns a fresh one. -/
def QXmppMessage.setReceiptRequested (m : QXmppMessage) (requested : Bool) :
    QXmppMessage :=
  let m1 := { m with receiptRequested := requested }
  if requested && m1.id.isEmpty then generateAndSetNextId m1 else m1

/-! ## Decoder -/

/-- Modelled from the spec: `QXmppStanza::parse` reads the base fields
`id`, `to`, `from`, `xml:lang` from the attributes and the error payload
from an `error` child (QXmppStanza.cpp is not part of the source under
`src/`). -/
def stanzaParse (m : QXmppMessage) (element : XNode) : QXmppMessage :=
  { m with id := attrOf element "id", to_ := attrOf element "to",
           from_ := attrOf element "from", lang := attrOf element "xml:lang",
           hasError := (firstChildElem element "error").isSome }

/-- The `type` attribute scan: `m_type = Normal`, then the first matching
entry of `message_types` wins. -/
def parseTypeAttr (s : String) : MsgType :=
  match message_types.find? (fun p => p.2 == s) with
  | some p => p.1
  | none => .Normal

/-- The chat-state scan: for each known state name in the fixed order
`Active .. Paused`, look for a same-named first child in the chat-states
namespace; first match wins, no match leaves the state untouched. -/
def chatStateScan (element : XNode) : Option ChatState :=
  match chat_states.find? (fun p =>
      match firstChildElem element p.2 with
      | some c => c.ns == ns_chat_states
      | none => false) with
  | some p => some p.1
  | none => none

/-- The token removed from the saved XHTML body by
`m_xhtml.replace(" xmlns=\"http://www.w3.org/1999/xhtml\"", "")`. -/
def xmlnsTok : List Char := " xmlns=\"http://www.w3.org/1999/xhtml\"".data

/-- The token removed from the saved XHTML body by
`m_xhtml.replace("</body>", "")`. -/
def closeBodyTok : List Char := "</body>".data

/-- The string surgery applied to the saved XHTML `body` element: drop up
to and including the first `>`, remove the XHTML namespace declaration
token, remove the closing `</body>` tag, and trim whitespace. -/
def xhtmlStrip (s : String) : String :=
  String.mk (trimL (replaceAllL (replaceAllL (midAfter '>' s.data) xmlnsTok [])
    closeBodyTok []))

/-- The XEP-0071 scan: locate `html` in the XHTML-IM namespace, then
`body` in the XHTML namespace inside it; if both are found, store the
stripped serialization of the `body` element.  The serializing stream
writes into `m_xhtml`, modelled as replacement (identical for the empty
initial string of a freshly constructed message). -/
def xhtmlScan (m : QXmppMessage) (element : XNode) : QXmppMessage :=
  match firstChildElem element "html" with
  | some h =>
    if h.ns == ns_xhtml_im then
      match firstChildElem h "body" with
      | some b =>
        if b.ns == ns_xhtml then { m with xhtml := xhtmlStrip (saveNode b) }
        else m
      | none => m
    else m
  | none => m

/-- The XEP-0184 `received` scan: take the `id` attribute of the first
`received` child when it is in the receipts namespace, falling back to the
stanza own id when that attribute is empty; otherwise clear the receipt
id. -/
def receiptScan (m : QXmppMessage) (element : XNode) : QXmppMessage :=
  match firstChildElem element "received" with
  | some r =>
    if r.ns == ns_message_receipts then
      let rid := attrOf r "id"
      { m with receiptId := if rid.isEmpty then m.id else rid }
    else { m with receiptId := "" }
  | none => { m with receiptId := "" }

/-- The XEP-0203 scan: if the first `delay` child is in the modern
delayed-delivery namespace, parse its `stamp` attribute and mark the stamp
modern. -/
def delayScan (m : QXmppMessage) (element : XNode) : QXmppMessage :=
  match firstChildElem element "delay" with
  | some d =>
    if d.ns == ns_delayed_delivery then
      { m with stamp := datetimeFromString (attrOf d "stamp"),
               stampType := .DelayedDelivery }
    else m
  | none => m

/-- The scan over all children named `x`: a child in the legacy
delayed-delivery namespace overwrites the stamp (XEP-0091); any other `x`
child is appended, as an opaque copy, to the collected extension list. -/
def xLoop : QXmppMessage → List XNode → QXmppMessage × List XNode
  | m, [] => (m, [])
  | m, x :: xs =>
    if x.ns == ns_legacy_delayed_delivery then
      xLoop { m with stamp := legacyStampParse (attrOf x "stamp"),
                     stampType := .LegacyDelayedDelivery } xs
    else
      let r := xLoop m xs
      (r.1, x :: r.2)

/-- `QXmppMessage::parse`, section by section in source order. -/
def QXmppMessage.parse (m0 : QXmppMessage) (element : XNode) : QXmppMessage :=
  let m1 := stanzaParse m0 element
  let m2 := { m1 with type := parseTypeAttr (attrOf element "type"),
                      body := optText (firstChildElem element "body"),
                      subject := optText (firstChildElem element "subject"),
                      thread := optText (firstChildElem element "thread") }
  let m3 := match chatStateScan element with
            | some st => { m2 with state := st }
            | none => m2
  let m4 := xhtmlScan m3 element
  let m5 := receiptScan m4 element
  let m6 := { m5 with receiptRequested :=
                nsOfOpt (firstChildElem element "request") == ns_message_receipts }
  let m7 := delayScan m6 element
  let m8 := { m7 with attentionRequested :=
                nsOfOpt (firstChildElem element "attention") == ns_attention }
  let r := xLoop m8 (xChildrenOf element)
  { r.1 with extensions := r.2 }

/-- Decoding an incoming element: parse into a freshly constructed
message. -/
def decodeFresh (element : XNode) : QXmppMessage :=
  freshMessage.parse element

/-! ## Encoder

`QXmppMessage::toXml` writes through a streaming XML writer; its byte
output is modelled directly as a string, one definition per source
section.  `helperToXmlAddAttribute` and `helperToXmlAddTextElement` are
modelled from the spec (QXmppUtils.cpp is not part of the source under
`src/`): an attribute is emitted only when its value is non-empty; a text
element is an escaped text child.  The writer self-closes an element when
no child content was written before its end. -/

/-- `helperToXmlAddAttribute`: emit the attribute only when non-empty. -/
def optAttr (name value : String) : String :=
  if value.isEmpty then "" else attrStr name value

/-- `helperToXmlAddTextElement`. -/
def textElemStr (name content : String) : String :=
  "<" ++ name ++ ">" ++ escText content ++ "</" ++ name ++ ">"

/-- An empty element carrying only an `xmlns` attribute. -/
def emptyElemNs (name nsUri : String) : String :=
  "<" ++ name ++ attrStr "xmlns" nsUri ++ "/>"

/-- The attribute section of the `message` start tag: `xml:lang`, `id`,
`to`, `from` when non-empty, then always `type`. -/
def attrsPart (m : QXmppMessage) : String :=
  optAttr "xml:lang" m.lang ++ optAttr "id" m.id ++ optAttr "to" m.to_ ++
  optAttr "from" m.from_ ++ attrStr "type" (messageTypeStr m.type)

/-- The `subject` child, when non-empty. -/
def subjectPart (m : QXmppMessage) : String :=
  if m.subject.isEmpty then "" else textElemStr "subject" m.subject

/-- The `body` child, when non-empty. -/
def bodyPart (m : QXmppMessage) : String :=
  if m.body.isEmpty then "" else textElemStr "body" m.body

/-- The `thread` child, when non-empty. -/
def threadPart (m : QXmppMessage) : String :=
  if m.thread.isEmpty then "" else textElemStr "thread" m.thread

/-- Modelled from the spec: `error().toXml(xmlWriter)` emits the error
payload when an error is set (QXmppStanza.cpp is not part of the source
under `src/`; the payload is modelled as a bare `error` element). -/
def errorPart (m : QXmppMessage) : String :=
  if m.hasError then "<error/>" else ""

/-- The chat-state child: an empty element named after the state in the
chat-states namespace, for states `Active .. Paused` only. -/
def statePart (m : QXmppMessage) : String :=
  if m.state == .None then "" else emptyElemNs (chatStateStr m.state) ns_chat_states

/-- The XEP-0071 block: `html` (XHTML-IM namespace) wrapping `body`
(XHTML namespace) whose content is the raw fragment bytes, injected
unescaped through the writer device. -/
def xhtmlPart (m : QXmppMessage) : String :=
  if m.xhtml.isEmpty then ""
  else "<html" ++ attrStr "xmlns" ns_xhtml_im ++ "><body" ++
       attrStr "xmlns" ns_xhtml ++ ">" ++ m.xhtml ++ "</body></html>"

/-- The timestamp block: nothing for an invalid stamp; a modern `delay`
element or a legacy `x` element, by stamp type, for a valid one.  The
stamp is already UTC in this model, so `toUTC` is the identity. -/
def stampPart (m : QXmppMessage) : String :=
  match m.stamp with
  | none => ""
  | some t =>
    if m.stampType == .DelayedDelivery then
      "<delay" ++ attrStr "xmlns" ns_delayed_delivery ++
      optAttr "stamp" (datetimeToString t) ++ "/>"
    else
      "<x" ++ attrStr "xmlns" ns_legacy_delayed_delivery ++
      optAttr "stamp" (legacyStampString t) ++ "/>"

/-- The `received` child, when a receipt id is set. -/
def receivedPart (m : QXmppMessage) : String :=
  if m.receiptId.isEmpty then ""
  else "<received" ++ attrStr "xmlns" ns_message_receipts ++
       attrStr "id" m.receiptId ++ "/>"

/-- The `request` child, when a receipt is requested. -/
def requestPart (m : QXmppMessage) : String :=
  if m.receiptRequested then emptyElemNs "request" ns_message_receipts else ""

/-- The `attention` child, when attention is requested. -/
def attentionPart (m : QXmppMessage) : String :=
  if m.attentionRequested then emptyElemNs "attention" ns_attention else ""

/-- The trailing opaque extensions, emitted verbatim in stored order
(modelled from the spec: `QXmppElement::toXml` writes the preserved copy;
QXmppElement.cpp is not part of the source under `src/`). -/
def extsPart (m : QXmppMessage) : String :=
  saveNodes m.extensions

/-- The concatenated child content of the `message` element, in source
emission order. -/
def contentPart (m : QXmppMessage) : String :=
  subjectPart m ++ bodyPart m ++ threadPart m ++ errorPart m ++ statePart m ++
  xhtmlPart m ++ stampPart m ++ receivedPart m ++ requestPart m ++
  attentionPart m ++ extsPart m

/-- Did any section write child content?  The writer closes the start tag
with `>` on the first child write and self-closes with `/>` otherwise. -/
def hasChildContent (m : QXmppMessage) : Bool :=
  !m.subject.isEmpty || !m.body.isEmpty || !m.thread.isEmpty || m.hasError ||
  m.state != .None || !m.xhtml.isEmpty || m.stamp.isSome ||
  !m.receiptId.isEmpty || m.receiptRequested || m.attentionRequested ||
  !m.extensions.isEmpty

/-- `QXmppMessage::toXml`: the serialized bytes of the outgoing stanza. -/
def QXmppMessage.toXml (m : QXmppMessage) : String :=
  "<message" ++ attrsPart m ++
  (if hasChildContent m then ">" ++ contentPart m ++ "</message>" else "/>")

/-! ## Canonical stanza trees

`encodeTree m` is the element tree whose canonical serialization is
exactly `toXml m` (proved below): the shape of every stanza built only
from the extensions this codec understands. -/

/-- The attribute list of the canonical `message` element. -/
def msgAttrs (m : QXmppMessage) : List (String × String) :=
  (if m.lang.isEmpty then [] else [("xml:lang", m.lang)]) ++
  (if m.id.isEmpty then [] else [("id", m.id)]) ++
  (if m.to_.isEmpty then [] else [("to", m.to_)]) ++
  (if m.from_.isEmpty then [] else [("from", m.from_)]) ++
  [("type", messageTypeStr m.type)]

/-- Canonical `subject` child list. -/
def subjectSeg (m : QXmppMessage) : List XNode :=
  if m.subject.isEmpty then [] else [.elem "subject" "" [] [.text m.subject]]

/-- Canonical `body` child list. -/
def bodySeg (m : QXmppMessage) : List XNode :=
  if m.body.isEmpty then [] else [.elem "body" "" [] [.text m.body]]

/-- Canonical `thread` child list. -/
def threadSeg (m : QXmppMessage) : List XNode :=
  if m.thread.isEmpty then [] else [.elem "thread" "" [] [.text m.thread]]

/-- Canonical error child list. -/
def errorSeg (m : QXmppMessage) : List XNode :=
  if m.hasError then [.elem "error" "" [] []] else []

/-- Canonical chat-state child list. -/
def stateSeg (m : QXmppMessage) : List XNode :=
  if m.state == .None then []
  else [.elem (chatStateStr m.state) ns_chat_states [] []]

/-- Canonical XHTML-IM child list; the fragment is carried as a raw node. -/
def xhtmlSeg (m : QXmppMessage) : List XNode :=
  if m.xhtml.isEmpty then []
  else [.elem "html" ns_xhtml_im []
         [.elem "body" ns_xhtml [] [.raw m.xhtml]]]

/-- Canonical timestamp child list. -/
def stampSeg (m : QXmppMessage) : List XNode :=
  match m.stamp with
  | none => []
  | some t =>
    if m.stampType == .DelayedDelivery then
      [.elem "delay" ns_delayed_delivery [("stamp", datetimeToString t)] []]
    else
      [.elem "x" ns_legacy_delayed_delivery [("stamp", legacyStampString t)] []]

/-- Canonical `received` child list. -/
def receivedSeg (m : QXmppMessage) : List XNode :=
  if m.receiptId.isEmpty then []
  else [.elem "received" ns_message_receipts [("id", m.receiptId)] []]

/-- Canonical `request` child list. -/
def requestSeg (m : QXmppMessage) : List XNode :=
  if m.receiptRequested then [.elem "request" ns_message_receipts [] []] else []

/-- Canonical `attention` child list. -/
def attentionSeg (m : QXmppMessage) : List XNode :=
  if m.attentionRequested then [.elem "attention" ns_attention [] []] else []

/-- The canonical child list of a stanza, in encoder emission order. -/
def msgChildren (m : QXmppMessage) : List XNode :=
  subjectSeg m ++ bodySeg m ++ threadSeg m ++ errorSeg m ++ stateSeg m ++
  xhtmlSeg m ++ stampSeg m ++ receivedSeg m ++ requestSeg m ++
  attentionSeg m ++ m.extensions

/-- The canonical stanza tree of a message. -/
def encodeTree (m : QXmppMessage) : XNode :=
  .elem "message" "" (msgAttrs m) (msgChildren m)

/-- A well-formed XHTML body fragment: canonically serialized markup that
survives the decoder string surgery: it does not contain the XHTML
namespace-declaration token (nor complete one across the closing-tag
boundary), no prefix of a `</body>` occurrence starts inside it, and it
carries no surrounding whitespace. -/
def wfXhtmlFrag (f : String) : Prop :=
  occursL xmlnsTok (f.data ++ closeBodyTok) = false ∧
  (∀ i, i < f.data.length →
    startsWithL closeBodyTok (f.data.drop i ++ closeBodyTok) = false) ∧
  trimL f.data = f.data

instance (f : String) : Decidable (wfXhtmlFrag f) := by
  unfold wfXhtmlFrag
  infer_instance

/-! ## Well-formed messages

The class of messages whose canonical stanza is built only from the
extensions the codec understands: no error payload, no opaque extensions,
a calendar-valid stamp when present, and a well-formed XHTML fragment when
present. -/

def wfMsg (m : QXmppMessage) : Prop :=
  m.hasError = false ∧ m.extensions.isEmpty = true ∧
  m.stamp.all validDT = true ∧
  (m.xhtml.isEmpty = true ∨ wfXhtmlFrag m.xhtml)

instance (m : QXmppMessage) : Decidable (wfMsg m) := by
  unfold wfMsg
  infer_instance

/-! ## Substring positions (used to state relative order of output) -/

/-- The index of the first occurrence of `pat` in `s`, if any. -/
def idxOfFirst (pat : List Char) : List Char → Option Nat
  | [] => if startsWithL pat [] then some 0 else none
  | c :: cs =>
    if startsWithL pat (c :: cs) then some 0
    else (idxOfFirst pat cs).map (· + 1)

/-- Does the first occurrence of `p` come strictly before the first
occurrence of `q` in `s` (both occurring)? -/
def precedesIn (p q s : String) : Bool :=
  match idxOfFirst p.data s.data, idxOfFirst q.data s.data with
  | some i, some j => i < j
  | _, _ => false

/-! ## Concrete inputs used by the checks below -/

/-- A message exercising every extension the codec understands. -/
def exMsgFull : QXmppMessage :=
  { freshMessage with
    id := "abc"
    lang := "en"
    to_ := "a@x.org"
    from_ := "b@x.org"
    body := "hi & <b>"
    subject := "s"
    thread := "th"
    state := ChatState.Composing
    xhtml := "<p>hello</p>"
    stamp := some ⟨2009, 1, 10, 8, 21, 5⟩
    stampType := StampType.LegacyDelayedDelivery
    receiptId := "msg1"
    receiptRequested := true
    attentionRequested := true }

/-- A modern `delay` child with a parseable stamp. -/
def exDelayChild : XNode :=
  .elem "delay" ns_delayed_delivery [("stamp", "2002-09-10T23:08:25Z")] []

/-- A legacy `x` delay child with a parseable stamp. -/
def exXChild : XNode :=
  .elem "x" ns_legacy_delayed_delivery [("stamp", "20090110T08:21:05")] []

/-- A stanza carrying both a modern and a legacy delay. -/
def exElDual : XNode := .elem "message" "" [] [exDelayChild, exXChild]

/-- A stanza whose delay children carry unparseable stamps. -/
def exElBadStamps : XNode := .elem "message" "" []
  [.elem "delay" ns_delayed_delivery [("stamp", "oops")] [],
   .elem "x" ns_legacy_delayed_delivery [("stamp", "bad")] []]

/-- A stanza with a child the codec does not interpret and does not store. -/
def exElCustom : XNode :=
  .elem "message" "" [] [.elem "custom" "urn:custom" [] []]

/-- A stanza with an `x` child outside the legacy-delay namespace. -/
def exElXCustom : XNode :=
  .elem "message" "" [] [.elem "x" "urn:custom" [("k", "v")] []]

/-- A stanza whose first `received` child is in a foreign namespace and
whose second one is a genuine receipt. -/
def exElRecvForeign : XNode := .elem "message" "" [("id", "stanid")]
  [.elem "received" "urn:x" [("id", "a")] [],
   .elem "received" ns_message_receipts [("id", "b")] []]

/-- A stanza whose first `composing` child is in a foreign namespace and
whose second one is a genuine chat state. -/
def exElComposingForeign : XNode := .elem "message" "" []
  [.elem "composing" "urn:x" [] [], .elem "composing" ns_chat_states [] []]

/-- A stanza with a single genuine `composing` chat-state child. -/
def exElComposing : XNode :=
  .elem "message" "" [] [.elem "composing" ns_chat_states [] []]

/-- A stanza whose only state-named child is in a foreign namespace. -/
def exElForeignActive : XNode :=
  .elem "message" "" [] [.elem "active" "urn:x" [] []]

/-- A message with attention requested and a receipt id. -/
def exMsgAttnRecv : QXmppMessage :=
  { freshMessage with
    receiptId := "msg1"
    attentionRequested := true }

/-- A message that already has an id. -/
def exMsgWithId : QXmppMessage := { freshMessage with id := "abc" }

/-- A message with a chat state and a timestamp already set. -/
def exMsgStateStamp : QXmppMessage :=
  { freshMessage with
    state := ChatState.Paused
    stamp := some ⟨2001, 2, 3, 4, 5, 6⟩
    stampType := StampType.LegacyDelayedDelivery }

/-- A stanza with only a plain body child. -/
def exElBody : XNode :=
  .elem "message" "" [] [.elem "body" "" [] [.text "hi"]]


/-! ## Stamp round-trip lemmas -/

theorem digitVal_digitChar (n : Nat) : digitVal (digitChar n) = some (n % 10) := by
  have key : ∀ d, d < 10 → digitVal (Char.ofNat (48 + d)) = some d := by decide
  exact key (n % 10) (Nat.mod_lt _ (by omega))

theorem read2_pads (n : Nat) (h : n < 100) :
    read2 (digitChar (n / 10)) (digitChar n) = some n := by
  simp only [read2, digitVal_digitChar]
  congr 1
  omega

theorem read4_pads (n : Nat) (h : n ≤ 9999) :
    read4 (digitChar (n / 1000)) (digitChar (n / 100)) (digitChar (n / 10))
      (digitChar n) = some n := by
  simp only [read4, digitVal_digitChar]
  congr 1
  omega

theorem daysInMonth_le (y m : Nat) : daysInMonth y m ≤ 31 := by
  simp only [daysInMonth]
  split <;> [split <;> omega; split <;> omega]

theorem validDT_bounds (t : UtcDT) (h : validDT t = true) :
    t.year ≤ 9999 ∧ t.month < 100 ∧ t.day < 100 ∧ t.hour < 100 ∧
    t.minute < 100 ∧ t.second < 100 := by
  have hd := daysInMonth_le t.year t.month
  simp only [validDT, Bool.and_eq_true, decide_eq_true_eq] at h
  omega

theorem legacyStampParse_roundtrip (t : UtcDT) (h : validDT t = true) :
    legacyStampParse (legacyStampString t) = some t := by
  obtain ⟨hy, hmo, hd, hh, hmi, hs⟩ := validDT_bounds t h
  obtain ⟨y, mo, d, hr, mi, s⟩ := t
  simp only at hy hmo hd hh hmi hs
  simp only [legacyStampString, legacyStampChars, pad4, pad2, legacyStampParse,
    List.cons_append, List.nil_append]
  rw [read4_pads _ hy, read2_pads _ hmo, read2_pads _ hd, read2_pads _ hh,
    read2_pads _ hmi, read2_pads _ hs]
  simp only [h, if_true]

theorem datetimeFromString_roundtrip (t : UtcDT) (h : validDT t = true) :
    datetimeFromString (datetimeToString t) = some t := by
  obtain ⟨hy, hmo, hd, hh, hmi, hs⟩ := validDT_bounds t h
  obtain ⟨y, mo, d, hr, mi, s⟩ := t
  simp only at hy hmo hd hh hmi hs
  simp only [datetimeToString, pad4, pad2, datetimeFromString,
    List.cons_append, List.nil_append]
  rw [read4_pads _ hy, read2_pads _ hmo, read2_pads _ hd, read2_pads _ hh,
    read2_pads _ hmi, read2_pads _ hs]
  simp only [h, if_true]

theorem datetimeToString_ne_empty (t : UtcDT) : datetimeToString t ≠ "" := by
  intro hcon
  have := congrArg String.data hcon
  simp [datetimeToString, pad4] at this

theorem legacyStampString_ne_empty (t : UtcDT) : legacyStampString t ≠ "" := by
  intro hcon
  have := congrArg String.data hcon
  simp [legacyStampString, legacyStampChars, pad4] at this

/-! ## Child and attribute lookup lemmas on canonical trees -/

theorem findTag_nil (t : String) : findTag [] t = none := rfl

theorem findTag_append (a b : List XNode) (t : String) :
    findTag (a ++ b) t = (findTag a t).or (findTag b t) :=
  List.find?_append

theorem findTag_cons (e : XNode) (l : List XNode) (t : String) :
    findTag (e :: l) t =
      if e.isElem && e.tag == t then some e else findTag l t := by
  by_cases h : (e.isElem && e.tag == t) = true <;> simp [findTag, List.find?, h]

theorem findTag_negseg (c : Bool) (e : XNode) (t : String) :
    findTag (if c then [] else [e]) t =
      if !c && (e.isElem && e.tag == t) then some e else none := by
  cases c <;> simp [findTag]

theorem findTag_posseg (c : Bool) (e : XNode) (t : String) :
    findTag (if c then [e] else []) t =
      if c && (e.isElem && e.tag == t) then some e else none := by
  cases c <;> simp [findTag]

theorem findTag_stampSeg_ne (m : QXmppMessage) (t : String)
    (h1 : "delay" ≠ t) (h2 : "x" ≠ t) :
    findTag (stampSeg m) t = none := by
  unfold stampSeg
  cases m.stamp with
  | none => rfl
  | some t0 =>
    by_cases hst : m.stampType = StampType.DelayedDelivery <;>
      simp [hst, findTag, XNode.isElem, XNode.tag, List.find?, h1, h2]

theorem chatStateStr_ne_none_iff (s : ChatState) :
    chatStateStr s = "" ↔ s = ChatState.None := by
  cases s <;> simp [chatStateStr]

theorem findTag_stateSeg_ne (m : QXmppMessage) (t : String)
    (h1 : "active" ≠ t) (h2 : "inactive" ≠ t) (h3 : "gone" ≠ t)
    (h4 : "composing" ≠ t) (h5 : "paused" ≠ t) :
    findTag (stateSeg m) t = none := by
  have h : ∀ s : ChatState, chatStateStr s ≠ t ∨ s = ChatState.None := by
    intro s
    cases s <;> simp [chatStateStr] <;> first | exact Or.inl (by assumption) | tauto
  unfold stateSeg
  split
  · rfl
  · rename_i hne
    rcases h m.state with hne2 | hn
    · have hb : (chatStateStr m.state == t) = false := beq_eq_false_iff_ne.mpr hne2
      simp [findTag, XNode.isElem, XNode.tag, List.find?, hb]
    · simp [hn] at hne

theorem attrFind_append (a b : List (String × String)) (name : String) :
    (a ++ b).find? (fun p => p.1 == name) =
      ((a.find? fun p => p.1 == name).or (b.find? fun p => p.1 == name)) :=
  List.find?_append

theorem attrFind_negseg (c : Bool) (p : String × String) (name : String) :
    ((if c then [] else [p]).find? fun q => q.1 == name) =
      if !c && (p.1 == name) then some p else none := by
  cases c
  · by_cases h : p.1 = name
    · simp [List.find?, h]
    · have hb : (p.1 == name) = false := beq_eq_false_iff_ne.mpr h
      simp [List.find?, hb]
  · simp [List.find?]

/-! Evaluation of the individual lookups done by `parse` on a canonical
tree `encodeTree m`.  The opaque extension list must be empty: an
extension with a colliding tag name could otherwise shadow or extend the
lookups. -/

theorem attrOf_encodeTree_id (m : QXmppMessage) :
    attrOf (encodeTree m) "id" = m.id := by
  by_cases hid : m.id.isEmpty
  · simp [attrOf, encodeTree, XNode.attrs, msgAttrs, attrFind_append,
      attrFind_negseg, hid, List.find?]
    simp [String.isEmpty_iff] at hid
    exact hid.symm
  · simp [attrOf, encodeTree, XNode.attrs, msgAttrs, attrFind_append,
      attrFind_negseg, hid, List.find?]

theorem attrOf_encodeTree_to (m : QXmppMessage) :
    attrOf (encodeTree m) "to" = m.to_ := by
  by_cases h : m.to_.isEmpty
  · simp [attrOf, encodeTree, XNode.attrs, msgAttrs, attrFind_append,
      attrFind_negseg, h, List.find?]
    simp [String.isEmpty_iff] at h
    exact h.symm
  · simp [attrOf, encodeTree, XNode.attrs, msgAttrs, attrFind_append,
      attrFind_negseg, h, List.find?]

theorem attrOf_encodeTree_from (m : QXmppMessage) :
    attrOf (encodeTree m) "from" = m.from_ := by
  by_cases h : m.from_.isEmpty
  · simp [attrOf, encodeTree, XNode.attrs, msgAttrs, attrFind_append,
      attrFind_negseg, h, List.find?]
    simp [String.isEmpty_iff] at h
    exact h.symm
  · simp [attrOf, encodeTree, XNode.attrs, msgAttrs, attrFind_append,
      attrFind_negseg, h, List.find?]

theorem attrOf_encodeTree_lang (m : QXmppMessage) :
    attrOf (encodeTree m) "xml:lang" = m.lang := by
  by_cases h : m.lang.isEmpty
  · simp [attrOf, encodeTree, XNode.attrs, msgAttrs, attrFind_append,
      attrFind_negseg, h, List.find?]
    simp [String.isEmpty_iff] at h
    exact h.symm
  · simp [attrOf, encodeTree, XNode.attrs, msgAttrs, attrFind_append,
      attrFind_negseg, h, List.find?]

theorem attrOf_encodeTree_type (m : QXmppMessage) :
    attrOf (encodeTree m) "type" = messageTypeStr m.type := by
  simp [attrOf, encodeTree, XNode.attrs, msgAttrs, attrFind_append,
    attrFind_negseg, List.find?]

theorem firstChildElem_encodeTree_error (m : QXmppMessage)
    (hx : m.extensions = []) :
    (firstChildElem (encodeTree m) "error").isSome = m.hasError := by
  have hst := findTag_stateSeg_ne m "error" (by decide) (by decide) (by decide)
    (by decide) (by decide)
  have hsp := findTag_stampSeg_ne m "error" (by decide) (by decide)
  simp only [firstChildElem, encodeTree, XNode.children, msgChildren, hx,
    findTag_append, subjectSeg, bodySeg, threadSeg, errorSeg, xhtmlSeg,
    receivedSeg, requestSeg, attentionSeg, findTag_negseg, findTag_posseg,
    hst, hsp, findTag_nil, XNode.isElem, XNode.tag]
  cases m.hasError <;> simp

theorem optText_encodeTree_subject (m : QXmppMessage)
    (hx : m.extensions = []) :
    optText (firstChildElem (encodeTree m) "subject") = m.subject := by
  have hst := findTag_stateSeg_ne m "subject" (by decide) (by decide) (by decide)
    (by decide) (by decide)
  have hsp := findTag_stampSeg_ne m "subject" (by decide) (by decide)
  simp only [firstChildElem, encodeTree, XNode.children, msgChildren, hx,
    findTag_append, subjectSeg, bodySeg, threadSeg, errorSeg, xhtmlSeg,
    receivedSeg, requestSeg, attentionSeg, findTag_negseg, findTag_posseg,
    hst, hsp, findTag_nil, XNode.isElem, XNode.tag]
  by_cases h : m.subject.isEmpty
  · have h2 := h
    rw [String.isEmpty_iff] at h2
    simp [h, optText, h2]
    rfl
  · simp [h, optText, textContent, textContentList]

theorem optText_encodeTree_body (m : QXmppMessage)
    (hx : m.extensions = []) :
    optText (firstChildElem (encodeTree m) "body") = m.body := by
  have hst := findTag_stateSeg_ne m "body" (by decide) (by decide) (by decide)
    (by decide) (by decide)
  have hsp := findTag_stampSeg_ne m "body" (by decide) (by decide)
  simp only [firstChildElem, encodeTree, XNode.children, msgChildren, hx,
    findTag_append, subjectSeg, bodySeg, threadSeg, errorSeg, xhtmlSeg,
    receivedSeg, requestSeg, attentionSeg, findTag_negseg, findTag_posseg,
    hst, hsp, findTag_nil, XNode.isElem, XNode.tag]
  by_cases h : m.body.isEmpty
  · have h2 := h
    rw [String.isEmpty_iff] at h2
    simp [h, optText, h2]
    rfl
  · simp [h, optText, textContent, textContentList]

theorem optText_encodeTree_thread (m : QXmppMessage)
    (hx : m.extensions = []) :
    optText (firstChildElem (encodeTree m) "thread") = m.thread := by
  have hst := findTag_stateSeg_ne m "thread" (by decide) (by decide) (by decide)
    (by decide) (by decide)
  have hsp := findTag_stampSeg_ne m "thread" (by decide) (by decide)
  simp only [firstChildElem, encodeTree, XNode.children, msgChildren, hx,
    findTag_append, subjectSeg, bodySeg, threadSeg, errorSeg, xhtmlSeg,
    receivedSeg, requestSeg, attentionSeg, findTag_negseg, findTag_posseg,
    hst, hsp, findTag_nil, XNode.isElem, XNode.tag]
  by_cases h : m.thread.isEmpty
  · have h2 := h
    rw [String.isEmpty_iff] at h2
    simp [h, optText, h2]
    rfl
  · simp [h, optText, textContent, textContentList]

set_option maxHeartbeats 2000000 in
theorem chatStateScan_encodeTree (m : QXmppMessage) (hx : m.extensions = []) :
    chatStateScan (encodeTree m) =
      if m.state = ChatState.None then none else some m.state := by
  have h1 := findTag_stampSeg_ne m "active" (by decide) (by decide)
  have h2 := findTag_stampSeg_ne m "inactive" (by decide) (by decide)
  have h3 := findTag_stampSeg_ne m "gone" (by decide) (by decide)
  have h4 := findTag_stampSeg_ne m "composing" (by decide) (by decide)
  have h5 := findTag_stampSeg_ne m "paused" (by decide) (by decide)
  cases hstate : m.state <;>
    simp [chatStateScan, chat_states, List.find?, firstChildElem, encodeTree,
      XNode.children, msgChildren, hx, hstate, findTag_append, subjectSeg,
      bodySeg, threadSeg, errorSeg, stateSeg, xhtmlSeg, receivedSeg,
      requestSeg, attentionSeg, findTag_negseg, findTag_posseg, findTag_cons,
      h1, h2, h3, h4, h5, findTag_nil, XNode.isElem, XNode.tag, XNode.ns,
      chatStateStr]

theorem firstChildElem_encodeTree_html (m : QXmppMessage)
    (hx : m.extensions = []) :
    firstChildElem (encodeTree m) "html" =
      if m.xhtml.isEmpty then none
      else some (.elem "html" ns_xhtml_im []
        [.elem "body" ns_xhtml [] [.raw m.xhtml]]) := by
  have hst := findTag_stateSeg_ne m "html" (by decide) (by decide) (by decide)
    (by decide) (by decide)
  have hsp := findTag_stampSeg_ne m "html" (by decide) (by decide)
  simp only [firstChildElem, encodeTree, XNode.children, msgChildren, hx,
    findTag_append, subjectSeg, bodySeg, threadSeg, errorSeg, xhtmlSeg,
    receivedSeg, requestSeg, attentionSeg, findTag_negseg, findTag_posseg,
    hst, hsp, findTag_nil, XNode.isElem, XNode.tag]
  by_cases h : m.xhtml.isEmpty <;> simp [h]

theorem firstChildElem_encodeTree_received (m : QXmppMessage)
    (hx : m.extensions = []) :
    firstChildElem (encodeTree m) "received" =
      if m.receiptId.isEmpty then none
      else some (.elem "received" ns_message_receipts [("id", m.receiptId)] []) := by
  have hst := findTag_stateSeg_ne m "received" (by decide) (by decide) (by decide)
    (by decide) (by decide)
  have hsp := findTag_stampSeg_ne m "received" (by decide) (by decide)
  simp only [firstChildElem, encodeTree, XNode.children, msgChildren, hx,
    findTag_append, subjectSeg, bodySeg, threadSeg, errorSeg, xhtmlSeg,
    receivedSeg, requestSeg, attentionSeg, findTag_negseg, findTag_posseg,
    hst, hsp, findTag_nil, XNode.isElem, XNode.tag]
  by_cases h : m.receiptId.isEmpty <;> simp [h]

theorem firstChildElem_encodeTree_request (m : QXmppMessage)
    (hx : m.extensions = []) :
    firstChildElem (encodeTree m) "request" =
      if m.receiptRequested then some (.elem "request" ns_message_receipts [] [])
      else none := by
  have hst := findTag_stateSeg_ne m "request" (by decide) (by decide) (by decide)
    (by decide) (by decide)
  have hsp := findTag_stampSeg_ne m "request" (by decide) (by decide)
  simp only [firstChildElem, encodeTree, XNode.children, msgChildren, hx,
    findTag_append, subjectSeg, bodySeg, threadSeg, errorSeg, xhtmlSeg,
    receivedSeg, requestSeg, attentionSeg, findTag_negseg, findTag_posseg,
    hst, hsp, findTag_nil, XNode.isElem, XNode.tag]
  cases m.receiptRequested <;> simp

theorem firstChildElem_encodeTree_attention (m : QXmppMessage)
    (hx : m.extensions = []) :
    firstChildElem (encodeTree m) "attention" =
      if m.attentionRequested then some (.elem "attention" ns_attention [] [])
      else none := by
  have hst := findTag_stateSeg_ne m "attention" (by decide) (by decide) (by decide)
    (by decide) (by decide)
  have hsp := findTag_stampSeg_ne m "attention" (by decide) (by decide)
  simp only [firstChildElem, encodeTree, XNode.children, msgChildren, hx,
    findTag_append, subjectSeg, bodySeg, threadSeg, errorSeg, xhtmlSeg,
    receivedSeg, requestSeg, attentionSeg, findTag_negseg, findTag_posseg,
    hst, hsp, findTag_nil, XNode.isElem, XNode.tag]
  cases m.attentionRequested <;> simp

theorem firstChildElem_encodeTree_delay (m : QXmppMessage)
    (hx : m.extensions = []) :
    firstChildElem (encodeTree m) "delay" =
      match m.stamp with
      | none => none
      | some t =>
        if m.stampType = StampType.DelayedDelivery then
          some (.elem "delay" ns_delayed_delivery [("stamp", datetimeToString t)] [])
        else none := by
  have hst := findTag_stateSeg_ne m "delay" (by decide) (by decide) (by decide)
    (by decide) (by decide)
  simp only [firstChildElem, encodeTree, XNode.children, msgChildren, hx,
    findTag_append, subjectSeg, bodySeg, threadSeg, errorSeg, xhtmlSeg,
    receivedSeg, requestSeg, attentionSeg, findTag_negseg, findTag_posseg,
    hst, findTag_nil, XNode.isElem, XNode.tag]
  cases hs : m.stamp with
  | none => simp [stampSeg, hs, findTag_nil]
  | some t =>
    by_cases hty : m.stampType = StampType.DelayedDelivery <;>
      simp [stampSeg, hs, hty, findTag, List.find?, XNode.isElem, XNode.tag]

theorem filter_x_subjectSeg (m : QXmppMessage) :
    (subjectSeg m).filter (fun c2 => c2.isElem && c2.tag == "x") = [] := by
  unfold subjectSeg
  split <;> simp [List.filter, XNode.isElem, XNode.tag]

theorem filter_x_bodySeg (m : QXmppMessage) :
    (bodySeg m).filter (fun c2 => c2.isElem && c2.tag == "x") = [] := by
  unfold bodySeg
  split <;> simp [List.filter, XNode.isElem, XNode.tag]

theorem filter_x_threadSeg (m : QXmppMessage) :
    (threadSeg m).filter (fun c2 => c2.isElem && c2.tag == "x") = [] := by
  unfold threadSeg
  split <;> simp [List.filter, XNode.isElem, XNode.tag]

theorem filter_x_errorSeg (m : QXmppMessage) :
    (errorSeg m).filter (fun c2 => c2.isElem && c2.tag == "x") = [] := by
  unfold errorSeg
  split <;> simp [List.filter, XNode.isElem, XNode.tag]

theorem filter_x_xhtmlSeg (m : QXmppMessage) :
    (xhtmlSeg m).filter (fun c2 => c2.isElem && c2.tag == "x") = [] := by
  unfold xhtmlSeg
  split <;> simp [List.filter, XNode.isElem, XNode.tag]

theorem filter_x_receivedSeg (m : QXmppMessage) :
    (receivedSeg m).filter (fun c2 => c2.isElem && c2.tag == "x") = [] := by
  unfold receivedSeg
  split <;> simp [List.filter, XNode.isElem, XNode.tag]

theorem filter_x_requestSeg (m : QXmppMessage) :
    (requestSeg m).filter (fun c2 => c2.isElem && c2.tag == "x") = [] := by
  unfold requestSeg
  split <;> simp [List.filter, XNode.isElem, XNode.tag]

theorem filter_x_attentionSeg (m : QXmppMessage) :
    (attentionSeg m).filter (fun c2 => c2.isElem && c2.tag == "x") = [] := by
  unfold attentionSeg
  split <;> simp [List.filter, XNode.isElem, XNode.tag]

theorem filter_x_stateSeg (m : QXmppMessage) :
    (stateSeg m).filter (fun c2 => c2.isElem && c2.tag == "x") = [] := by
  unfold stateSeg
  cases m.state <;> simp [List.filter, chatStateStr, XNode.isElem, XNode.tag]

theorem stateSeg_tag_ne_x (m : QXmppMessage) :
    ∀ a ∈ stateSeg m, a.isElem = true → ¬ a.tag = "x" := by
  intro a ha hel
  revert ha
  unfold stateSeg
  cases m.state <;> simp [chatStateStr] <;> rintro rfl <;> simp [XNode.tag]

theorem xChildrenOf_encodeTree (m : QXmppMessage) (hx : m.extensions = []) :
    xChildrenOf (encodeTree m) =
      match m.stamp with
      | none => []
      | some t =>
        if m.stampType = StampType.DelayedDelivery then []
        else [.elem "x" ns_legacy_delayed_delivery [("stamp", legacyStampString t)] []] := by
  simp only [xChildrenOf, encodeTree, XNode.children, msgChildren, hx,
    List.filter_append, filter_x_subjectSeg, filter_x_bodySeg,
    filter_x_threadSeg, filter_x_errorSeg, filter_x_xhtmlSeg,
    filter_x_receivedSeg, filter_x_requestSeg, filter_x_attentionSeg,
    filter_x_stateSeg, List.filter_nil, List.append_nil, List.nil_append]
  cases hs : m.stamp with
  | none => simp [stampSeg, hs]
  | some t =>
    by_cases hty : m.stampType = StampType.DelayedDelivery <;>
      simp [stampSeg, hs, hty, List.filter, XNode.isElem, XNode.tag]

/-! ## XHTML fragment surgery lemmas -/

theorem dropThroughChar_found (c : Char) (a b : List Char)
    (ha : a.all (fun x => !(x == c)) = true) :
    dropThroughChar c (a ++ c :: b) = some b := by
  induction a with
  | nil => simp [dropThroughChar]
  | cons y ys ih =>
    simp only [List.all_cons, Bool.and_eq_true, Bool.not_eq_true'] at ha
    rw [List.cons_append, dropThroughChar, ha.1]
    simp only [Bool.false_eq_true, if_false]
    exact ih ha.2

theorem replaceGo_no_occ (pat rep s : List Char) (h : occursL pat s = false) :
    replaceGo pat rep s 0 = s := by
  induction s with
  | nil => rfl
  | cons c cs ih =>
    rw [occursL, Bool.or_eq_false_iff] at h
    rw [replaceGo, h.1]
    simp only [Bool.false_and, Bool.false_eq_true, if_false]
    rw [ih h.2]

theorem replaceGo_append_no_occ (pat rep a b : List Char)
    (h : ∀ i, i < a.length → startsWithL pat (a.drop i ++ b) = false) :
    replaceGo pat rep (a ++ b) 0 = a ++ replaceGo pat rep b 0 := by
  induction a with
  | nil => simp
  | cons c cs ih =>
    have h0 : startsWithL pat (c :: (cs ++ b)) = false := by
      have := h 0 (by simp)
      simpa using this
    have harg : ∀ i, i < cs.length → startsWithL pat (cs.drop i ++ b) = false := by
      intro i hi
      have := h (i + 1) (by simpa using Nat.succ_lt_succ hi)
      simpa using this
    rw [List.cons_append, replaceGo, h0]
    simp only [Bool.false_and, Bool.false_eq_true, if_false]
    rw [ih harg]
    simp

theorem replaceGo_closeTok_self : replaceGo closeBodyTok [] closeBodyTok 0 = [] := by
  decide

theorem saveNode_bodyElem (f : String) :
    (saveNode (.elem "body" ns_xhtml [] [.raw f])).data =
      "<body xmlns=\"http://www.w3.org/1999/xhtml\"".data ++
        '>' :: (f.data ++ closeBodyTok) := by
  have h1 : (ns_xhtml == "") = false := by decide
  have hesc : escAttr ns_xhtml = ns_xhtml := by decide
  simp only [saveNode, saveNodes, saveAttrs, attrStr, h1,
    Bool.false_eq_true, if_false, List.isEmpty_cons, hesc,
    String.append_empty, String.data_append]
  rw [show ns_xhtml.data =
    ['h', 't', 't', 'p', ':', '/', '/', 'w', 'w', 'w', '.', 'w', '3', '.',
     'o', 'r', 'g', '/', '1', '9', '9', '9', '/', 'x', 'h', 't', 'm', 'l']
    from rfl]
  rw [show closeBodyTok = ['<', '/', 'b', 'o', 'd', 'y', '>'] from rfl]
  simp [List.cons_append, List.append_assoc]

theorem xhtmlStrip_canonical (f : String) (hwf : wfXhtmlFrag f) :
    xhtmlStrip (saveNode (.elem "body" ns_xhtml [] [.raw f])) = f := by
  obtain ⟨h1, h2, h3⟩ := hwf
  unfold xhtmlStrip
  rw [saveNode_bodyElem f]
  unfold midAfter
  rw [dropThroughChar_found _ _ _ (by decide)]
  unfold replaceAllL
  rw [replaceGo_no_occ _ _ _ h1, replaceGo_append_no_occ _ _ _ _ h2,
    replaceGo_closeTok_self, List.append_nil, h3]

/-! ## Scan evaluation on canonical trees -/

theorem xhtmlScan_encodeTree (m : QXmppMessage) (hx : m.extensions = [])
    (hwf : m.xhtml.isEmpty = true ∨ wfXhtmlFrag m.xhtml) (m0 : QXmppMessage) :
    xhtmlScan m0 (encodeTree m) =
      if m.xhtml.isEmpty then m0 else { m0 with xhtml := m.xhtml } := by
  unfold xhtmlScan
  rw [firstChildElem_encodeTree_html m hx]
  by_cases h : m.xhtml.isEmpty
  · simp [h]
  · have hwf2 : wfXhtmlFrag m.xhtml := by
      rcases hwf with h2 | h2
      · exact absurd h2 h
      · exact h2
    simp only [h, Bool.false_eq_true, if_false]
    simp [firstChildElem, findTag, List.find?, XNode.isElem, XNode.tag,
      XNode.ns, xhtmlStrip_canonical m.xhtml hwf2]

theorem receiptScan_encodeTree (m : QXmppMessage) (hx : m.extensions = [])
    (m0 : QXmppMessage) :
    receiptScan m0 (encodeTree m) = { m0 with receiptId := m.receiptId } := by
  unfold receiptScan
  rw [firstChildElem_encodeTree_received m hx]
  by_cases h : m.receiptId.isEmpty
  · have h2 := h
    rw [String.isEmpty_iff] at h2
    simp [h, h2]
    rfl
  · simp [h, XNode.ns, attrOf, XNode.attrs, List.find?]

theorem delayScan_encodeTree (m : QXmppMessage) (hx : m.extensions = [])
    (hv : m.stamp.all validDT = true) (m0 : QXmppMessage) :
    delayScan m0 (encodeTree m) =
      match m.stamp with
      | none => m0
      | some t =>
        if m.stampType = StampType.DelayedDelivery then
          { m0 with stamp := some t, stampType := StampType.DelayedDelivery }
        else m0 := by
  unfold delayScan
  rw [firstChildElem_encodeTree_delay m hx]
  cases hs : m.stamp with
  | none => rfl
  | some t =>
    rw [hs] at hv
    simp only [Option.all_some] at hv
    by_cases hty : m.stampType = StampType.DelayedDelivery
    · simp [hty, XNode.ns, attrOf, XNode.attrs, List.find?,
        datetimeFromString_roundtrip t hv]
    · simp [hty]

/-! ## The `x` loop -/

theorem xLoop_snd (m : QXmppMessage) (xs : List XNode) :
    (xLoop m xs).2 =
      xs.filter (fun x => !(x.ns == ns_legacy_delayed_delivery)) := by
  induction xs generalizing m with
  | nil => rfl
  | cons x xs ih =>
    by_cases h : (x.ns == ns_legacy_delayed_delivery) = true <;>
      simp [xLoop, h, List.filter, ih]

theorem xLoop_fst (m : QXmppMessage) (xs : List XNode) :
    (xLoop m xs).1 =
      (xs.filter (fun x => x.ns == ns_legacy_delayed_delivery)).foldl
        (fun acc x =>
          { acc with stamp := legacyStampParse (attrOf x "stamp"),
                     stampType := StampType.LegacyDelayedDelivery }) m := by
  induction xs generalizing m with
  | nil => rfl
  | cons x xs ih =>
    by_cases h : (x.ns == ns_legacy_delayed_delivery) = true <;>
      simp [xLoop, h, List.filter, ih]

/-! ## The decode-of-encode round trip -/

theorem parseTypeAttr_messageTypeStr (ty : MsgType) :
    parseTypeAttr (messageTypeStr ty) = ty := by
  cases ty <;> rfl

theorem request_flag_encodeTree (m : QXmppMessage) (hx : m.extensions = []) :
    (nsOfOpt (firstChildElem (encodeTree m) "request") == ns_message_receipts) =
      m.receiptRequested := by
  rw [firstChildElem_encodeTree_request m hx]
  cases m.receiptRequested <;> simp [nsOfOpt, XNode.ns] <;> decide

theorem attention_flag_encodeTree (m : QXmppMessage) (hx : m.extensions = []) :
    (nsOfOpt (firstChildElem (encodeTree m) "attention") == ns_attention) =
      m.attentionRequested := by
  rw [firstChildElem_encodeTree_attention m hx]
  cases m.attentionRequested <;> simp [nsOfOpt, XNode.ns] <;> decide

set_option maxHeartbeats 4000000 in
/-- Decoding the canonical stanza of a well-formed message restores the
message exactly, except that the stamp type of a message without a stamp
is left at its constructed default. -/
theorem parse_encodeTree (m : QXmppMessage) (hwf : wfMsg m) :
    freshMessage.parse (encodeTree m) =
      { m with stampType :=
          match m.stamp with
          | none => StampType.DelayedDelivery
          | some _ => m.stampType } := by
  obtain ⟨hE, hxE, hv, hX⟩ := hwf
  have hx : m.extensions = [] := by rwa [List.isEmpty_iff] at hxE
  have hvt : ∀ t0, m.stamp = some t0 → validDT t0 = true := by
    intro t0 h0
    rw [h0] at hv
    simpa using hv
  simp only [QXmppMessage.parse, stanzaParse,
    attrOf_encodeTree_id, attrOf_encodeTree_to, attrOf_encodeTree_from,
    attrOf_encodeTree_lang, attrOf_encodeTree_type,
    firstChildElem_encodeTree_error m hx,
    optText_encodeTree_subject m hx, optText_encodeTree_body m hx,
    optText_encodeTree_thread m hx, parseTypeAttr_messageTypeStr,
    chatStateScan_encodeTree m hx, xhtmlScan_encodeTree m hx hX,
    receiptScan_encodeTree m hx, delayScan_encodeTree m hx hv,
    request_flag_encodeTree m hx, attention_flag_encodeTree m hx,
    xLoop_fst, xLoop_snd, xChildrenOf_encodeTree m hx]
  by_cases hempty : m.xhtml.isEmpty
  · have hxe : m.xhtml = "" := by rwa [String.isEmpty_iff] at hempty
    have hxe2 : ("" : String) = m.xhtml := hxe.symm
    by_cases hstn : m.state = ChatState.None
    ·
      cases hstamp : m.stamp with
      | none =>
        simp [hempty, hstn, hstamp, hx, hxe2, freshMessage, QXmppMessage.construct]
      | some t =>
        by_cases hty : m.stampType = StampType.DelayedDelivery
        · simp [hempty, hstn, hstamp, hty, hx, hxe2, freshMessage,
            QXmppMessage.construct]
        · have hty2 : m.stampType = StampType.LegacyDelayedDelivery := by
            cases hcase : m.stampType
            · exact absurd hcase hty
            · rfl
          simp [hempty, hstn, hstamp, hty, hty2, hx, hxe2, freshMessage,
            QXmppMessage.construct, XNode.ns, attrOf, XNode.attrs, List.find?,
            List.filter, legacyStampParse_roundtrip t (hvt t hstamp)]
    ·
      cases hstamp : m.stamp with
      | none =>
        simp [hempty, hstn, hstamp, hx, hxe2, freshMessage, QXmppMessage.construct]
      | some t =>
        by_cases hty : m.stampType = StampType.DelayedDelivery
        · simp [hempty, hstn, hstamp, hty, hx, hxe2, freshMessage,
            QXmppMessage.construct]
        · have hty2 : m.stampType = StampType.LegacyDelayedDelivery := by
            cases hcase : m.stampType
            · exact absurd hcase hty
            · rfl
          simp [hempty, hstn, hstamp, hty, hty2, hx, hxe2, freshMessage,
            QXmppMessage.construct, XNode.ns, attrOf, XNode.attrs, List.find?,
            List.filter, legacyStampParse_roundtrip t (hvt t hstamp)]
  · by_cases hstn : m.state = ChatState.None
    ·
      cases hstamp : m.stamp with
      | none =>
        simp [hempty, hstn, hstamp, hx, freshMessage, QXmppMessage.construct]
      | some t =>
        by_cases hty : m.stampType = StampType.DelayedDelivery
        · simp [hempty, hstn, hstamp, hty, hx, freshMessage,
            QXmppMessage.construct]
        · have hty2 : m.stampType = StampType.LegacyDelayedDelivery := by
            cases hcase : m.stampType
            · exact absurd hcase hty
            · rfl
          simp [hempty, hstn, hstamp, hty, hty2, hx, freshMessage,
            QXmppMessage.construct, XNode.ns, attrOf, XNode.attrs, List.find?,
            List.filter, legacyStampParse_roundtrip t (hvt t hstamp)]
    ·
      cases hstamp : m.stamp with
      | none =>
        simp [hempty, hstn, hstamp, hx, freshMessage, QXmppMessage.construct]
      | some t =>
        by_cases hty : m.stampType = StampType.DelayedDelivery
        · simp [hempty, hstn, hstamp, hty, hx, freshMessage,
            QXmppMessage.construct]
        · have hty2 : m.stampType = StampType.LegacyDelayedDelivery := by
            cases hcase : m.stampType
            · exact absurd hcase hty
            · rfl
          simp [hempty, hstn, hstamp, hty, hty2, hx, freshMessage,
            QXmppMessage.construct, XNode.ns, attrOf, XNode.attrs, List.find?,
            List.filter, legacyStampParse_roundtrip t (hvt t hstamp)]

/-! ## Canonical serialization equals the writer output

`encodeTree` is certified against `toXml`: serializing the canonical tree
of any message yields exactly the bytes the writer-based encoder
produces. -/

theorem saveNodes_append (a b : List XNode) :
    saveNodes (a ++ b) = saveNodes a ++ saveNodes b := by
  induction a with
  | nil => simp [saveNodes]
  | cons x xs ih => simp [saveNodes, ih, String.append_assoc]

theorem saveAttrs_append (a b : List (String × String)) :
    saveAttrs (a ++ b) = saveAttrs a ++ saveAttrs b := by
  induction a with
  | nil => simp [saveAttrs]
  | cons x xs ih => simp [saveAttrs, ih, String.append_assoc]

theorem saveAttrs_negseg (c : Bool) (n v : String) :
    saveAttrs (if c then [] else [(n, v)]) =
      if c then "" else attrStr n v := by
  cases c <;> simp [saveAttrs]

theorem saveNodes_subjectSeg (m : QXmppMessage) :
    saveNodes (subjectSeg m) = subjectPart m := by
  unfold subjectSeg subjectPart textElemStr
  split
  · rfl
  · apply String.ext
    simp [saveNodes, saveNode, saveAttrs, String.join, String.data_append]

theorem saveNodes_bodySeg (m : QXmppMessage) :
    saveNodes (bodySeg m) = bodyPart m := by
  unfold bodySeg bodyPart textElemStr
  split
  · rfl
  · apply String.ext
    simp [saveNodes, saveNode, saveAttrs, String.join, String.data_append]

theorem saveNodes_threadSeg (m : QXmppMessage) :
    saveNodes (threadSeg m) = threadPart m := by
  unfold threadSeg threadPart textElemStr
  split
  · rfl
  · apply String.ext
    simp [saveNodes, saveNode, saveAttrs, String.join, String.data_append]

theorem saveNodes_errorSeg (m : QXmppMessage) :
    saveNodes (errorSeg m) = errorPart m := by
  unfold errorSeg errorPart
  split
  · apply String.ext
    simp [saveNodes, saveNode, saveAttrs, String.join, String.data_append]
  · rfl

theorem saveNodes_stateSeg (m : QXmppMessage) :
    saveNodes (stateSeg m) = statePart m := by
  unfold stateSeg statePart emptyElemNs
  cases hst : m.state <;>
    first
      | rfl
      | (apply String.ext
         simp [saveNodes, saveNode, saveAttrs, attrStr, chatStateStr,
           String.join, String.data_append,
           ns_chat_states, show escAttr "http://jabber.org/protocol/chatstates" = "http://jabber.org/protocol/chatstates" from by decide])

theorem saveNodes_xhtmlSeg (m : QXmppMessage) :
    saveNodes (xhtmlSeg m) = xhtmlPart m := by
  unfold xhtmlSeg xhtmlPart
  split
  · rfl
  · apply String.ext
    simp [saveNodes, saveNode, saveAttrs, attrStr, String.join,
      String.data_append,
      ns_xhtml_im, show escAttr "http://jabber.org/protocol/xhtml-im" = "http://jabber.org/protocol/xhtml-im" from by decide,
      ns_xhtml, show escAttr "http://www.w3.org/1999/xhtml" = "http://www.w3.org/1999/xhtml" from by decide]

theorem saveNodes_stampSeg (m : QXmppMessage) :
    saveNodes (stampSeg m) = stampPart m := by
  unfold stampSeg stampPart
  cases hs : m.stamp with
  | none => rfl
  | some t =>
    by_cases hty : m.stampType = StampType.DelayedDelivery
    · have hne : (datetimeToString t).isEmpty = false := by
        rw [Bool.eq_false_iff]
        intro hcon
        rw [String.isEmpty_iff] at hcon
        exact datetimeToString_ne_empty t hcon
      simp only [hty]
      apply String.ext
      simp [saveNodes, saveNode, saveAttrs, attrStr, optAttr, hne,
        String.join, String.data_append,
        ns_delayed_delivery, show escAttr "urn:xmpp:delay" = "urn:xmpp:delay" from by decide]
    · have hne : (legacyStampString t).isEmpty = false := by
        rw [Bool.eq_false_iff]
        intro hcon
        rw [String.isEmpty_iff] at hcon
        exact legacyStampString_ne_empty t hcon
      have hty2 : (m.stampType == StampType.DelayedDelivery) = false := by
        rwa [beq_eq_false_iff_ne]
      simp only [hty2, Bool.false_eq_true, if_false,
        show (StampType.DelayedDelivery == StampType.DelayedDelivery) = true
          from rfl]
      apply String.ext
      simp [saveNodes, saveNode, saveAttrs, attrStr, optAttr, hne,
        String.join, String.data_append,
        ns_legacy_delayed_delivery, show escAttr "jabber:x:delay" = "jabber:x:delay" from by decide]

theorem saveNodes_receivedSeg (m : QXmppMessage) :
    saveNodes (receivedSeg m) = receivedPart m := by
  unfold receivedSeg receivedPart
  split
  · rfl
  · apply String.ext
    simp [saveNodes, saveNode, saveAttrs, attrStr, String.join,
      String.data_append,
      ns_message_receipts, show escAttr "urn:xmpp:receipts" = "urn:xmpp:receipts" from by decide]

theorem saveNodes_requestSeg (m : QXmppMessage) :
    saveNodes (requestSeg m) = requestPart m := by
  unfold requestSeg requestPart emptyElemNs
  split
  · apply String.ext
    simp [saveNodes, saveNode, saveAttrs, attrStr, String.join,
      String.data_append,
      ns_message_receipts, show escAttr "urn:xmpp:receipts" = "urn:xmpp:receipts" from by decide]
  · rfl

theorem saveNodes_attentionSeg (m : QXmppMessage) :
    saveNodes (attentionSeg m) = attentionPart m := by
  unfold attentionSeg attentionPart emptyElemNs
  split
  · apply String.ext
    simp [saveNodes, saveNode, saveAttrs, attrStr, String.join,
      String.data_append,
      ns_attention, show escAttr "urn:xmpp:attention" = "urn:xmpp:attention" from by decide]
  · rfl

theorem saveAttrs_msgAttrs (m : QXmppMessage) :
    saveAttrs (msgAttrs m) = attrsPart m := by
  unfold msgAttrs attrsPart optAttr
  rw [saveAttrs_append, saveAttrs_append, saveAttrs_append, saveAttrs_append,
    saveAttrs_negseg, saveAttrs_negseg, saveAttrs_negseg, saveAttrs_negseg]
  have h1 : saveAttrs [("type", messageTypeStr m.type)] =
      attrStr "type" (messageTypeStr m.type) := by
    simp [saveAttrs]
  rw [h1]

theorem subjectSeg_isEmpty (m : QXmppMessage) :
    (subjectSeg m).isEmpty = m.subject.isEmpty := by
  unfold subjectSeg
  split <;> simp_all

theorem bodySeg_isEmpty (m : QXmppMessage) :
    (bodySeg m).isEmpty = m.body.isEmpty := by
  unfold bodySeg
  split <;> simp_all

theorem threadSeg_isEmpty (m : QXmppMessage) :
    (threadSeg m).isEmpty = m.thread.isEmpty := by
  unfold threadSeg
  split <;> simp_all

theorem errorSeg_isEmpty (m : QXmppMessage) :
    (errorSeg m).isEmpty = !m.hasError := by
  unfold errorSeg
  split <;> simp_all

theorem stateSeg_isEmpty (m : QXmppMessage) :
    (stateSeg m).isEmpty = (m.state == ChatState.None) := by
  unfold stateSeg
  split <;> simp_all

theorem xhtmlSeg_isEmpty (m : QXmppMessage) :
    (xhtmlSeg m).isEmpty = m.xhtml.isEmpty := by
  unfold xhtmlSeg
  split <;> simp_all

theorem stampSeg_isEmpty (m : QXmppMessage) :
    (stampSeg m).isEmpty = !m.stamp.isSome := by
  unfold stampSeg
  cases m.stamp with
  | none => rfl
  | some t =>
    by_cases h : m.stampType = StampType.DelayedDelivery <;> simp [h]

theorem receivedSeg_isEmpty (m : QXmppMessage) :
    (receivedSeg m).isEmpty = m.receiptId.isEmpty := by
  unfold receivedSeg
  split <;> simp_all

theorem requestSeg_isEmpty (m : QXmppMessage) :
    (requestSeg m).isEmpty = !m.receiptRequested := by
  unfold requestSeg
  split <;> simp_all

theorem attentionSeg_isEmpty (m : QXmppMessage) :
    (attentionSeg m).isEmpty = !m.attentionRequested := by
  unfold attentionSeg
  split <;> simp_all

theorem isEmpty_append_nodes (a b : List XNode) :
    (a ++ b).isEmpty = (a.isEmpty && b.isEmpty) := by
  cases a <;> simp

theorem msgChildren_isEmpty (m : QXmppMessage) :
    (msgChildren m).isEmpty = !hasChildContent m := by
  unfold msgChildren hasChildContent
  simp only [isEmpty_append_nodes, subjectSeg_isEmpty, bodySeg_isEmpty,
    threadSeg_isEmpty, errorSeg_isEmpty, stateSeg_isEmpty, xhtmlSeg_isEmpty,
    stampSeg_isEmpty, receivedSeg_isEmpty, requestSeg_isEmpty,
    attentionSeg_isEmpty, Bool.not_or, Bool.not_not, bne]

/-- Serializing the canonical stanza tree of a message yields exactly the
writer output of the encoder. -/
theorem saveNode_encodeTree (m : QXmppMessage) :
    saveNode (encodeTree m) = m.toXml := by
  unfold encodeTree QXmppMessage.toXml
  rw [saveNode, saveAttrs_msgAttrs, msgChildren_isEmpty]
  have hchildren : saveNodes (msgChildren m) = contentPart m := by
    unfold msgChildren contentPart
    rw [saveNodes_append, saveNodes_append, saveNodes_append, saveNodes_append,
      saveNodes_append, saveNodes_append, saveNodes_append, saveNodes_append,
      saveNodes_append, saveNodes_append, saveNodes_subjectSeg,
      saveNodes_bodySeg, saveNodes_threadSeg, saveNodes_errorSeg,
      saveNodes_stateSeg, saveNodes_xhtmlSeg, saveNodes_stampSeg,
      saveNodes_receivedSeg, saveNodes_requestSeg, saveNodes_attentionSeg]
    rfl
  cases hcc : hasChildContent m with
  | true =>
    simp only [Bool.not_true, List.isEmpty_eq_false]
    rw [hchildren]
    apply String.ext
    simp [String.data_append]
  | false =>
    simp only [Bool.not_false, if_true]
    apply String.ext
    simp [String.data_append]

/-! ## Frame lemmas: which fields each parse section can touch -/

theorem xhtmlScan_id (m : QXmppMessage) (el : XNode) :
    (xhtmlScan m el).id = m.id := by
  unfold xhtmlScan
  repeat' split
  all_goals rfl

theorem xhtmlScan_state (m : QXmppMessage) (el : XNode) :
    (xhtmlScan m el).state = m.state := by
  unfold xhtmlScan
  repeat' split
  all_goals rfl

theorem xhtmlScan_stamp (m : QXmppMessage) (el : XNode) :
    (xhtmlScan m el).stamp = m.stamp := by
  unfold xhtmlScan
  repeat' split
  all_goals rfl

theorem xhtmlScan_stampType (m : QXmppMessage) (el : XNode) :
    (xhtmlScan m el).stampType = m.stampType := by
  unfold xhtmlScan
  repeat' split
  all_goals rfl

theorem receiptScan_state (m : QXmppMessage) (el : XNode) :
    (receiptScan m el).state = m.state := by
  unfold receiptScan
  repeat' split
  all_goals rfl

theorem receiptScan_stamp (m : QXmppMessage) (el : XNode) :
    (receiptScan m el).stamp = m.stamp := by
  unfold receiptScan
  repeat' split
  all_goals rfl

theorem receiptScan_stampType (m : QXmppMessage) (el : XNode) :
    (receiptScan m el).stampType = m.stampType := by
  unfold receiptScan
  repeat' split
  all_goals rfl

theorem receiptScan_receiptId (m : QXmppMessage) (el : XNode) :
    (receiptScan m el).receiptId =
      match firstChildElem el "received" with
      | some r =>
        if r.ns == ns_message_receipts then
          (if (attrOf r "id").isEmpty then m.id else attrOf r "id")
        else ""
      | none => "" := by
  unfold receiptScan
  repeat' split
  all_goals simp_all

theorem delayScan_state (m : QXmppMessage) (el : XNode) :
    (delayScan m el).state = m.state := by
  unfold delayScan
  repeat' split
  all_goals rfl

theorem delayScan_receiptId (m : QXmppMessage) (el : XNode) :
    (delayScan m el).receiptId = m.receiptId := by
  unfold delayScan
  repeat' split
  all_goals rfl

theorem delayScan_stamp_frame (m : QXmppMessage) (el : XNode)
    (hd : ∀ d, firstChildElem el "delay" = some d → d.ns ≠ ns_delayed_delivery) :
    delayScan m el = m := by
  unfold delayScan
  cases hfd : firstChildElem el "delay" with
  | none => rfl
  | some d =>
    have := hd d hfd
    simp only [beq_eq_false_iff_ne.mpr this, Bool.false_eq_true, if_false]

theorem xLoop_state (m : QXmppMessage) (xs : List XNode) :
    (xLoop m xs).1.state = m.state := by
  induction xs generalizing m with
  | nil => rfl
  | cons x xs ih =>
    by_cases h : (x.ns == ns_legacy_delayed_delivery) = true <;>
      simp [xLoop, h, ih]

theorem xLoop_receiptId (m : QXmppMessage) (xs : List XNode) :
    (xLoop m xs).1.receiptId = m.receiptId := by
  induction xs generalizing m with
  | nil => rfl
  | cons x xs ih =>
    by_cases h : (x.ns == ns_legacy_delayed_delivery) = true <;>
      simp [xLoop, h, ih]

theorem xLoop_stamp_frame (m : QXmppMessage) (xs : List XNode)
    (h : ∀ x ∈ xs, x.ns ≠ ns_legacy_delayed_delivery) :
    (xLoop m xs).1.stamp = m.stamp ∧ (xLoop m xs).1.stampType = m.stampType := by
  induction xs generalizing m with
  | nil => exact ⟨rfl, rfl⟩
  | cons x xs ih =>
    have hx : (x.ns == ns_legacy_delayed_delivery) = false :=
      beq_eq_false_iff_ne.mpr (h x (List.mem_cons_self x xs))
    have ih2 := ih m (fun y hy => h y (List.mem_cons_of_mem x hy))
    simp [xLoop, hx, ih2.1, ih2.2]

theorem xLoop_stamp_none (m : QXmppMessage) (xs : List XNode)
    (h0 : m.stamp = none)
    (h : ∀ x ∈ xs, x.ns = ns_legacy_delayed_delivery →
      legacyStampParse (attrOf x "stamp") = none) :
    (xLoop m xs).1.stamp = none := by
  induction xs generalizing m with
  | nil => exact h0
  | cons x xs ih =>
    by_cases hx : (x.ns == ns_legacy_delayed_delivery) = true
    · have hparse := h x (List.mem_cons_self x xs) (by rwa [beq_iff_eq] at hx)
      simp only [xLoop, hx, if_true]
      exact ih _ hparse (fun y hy => h y (List.mem_cons_of_mem x hy))
    · simp only [xLoop, hx, Bool.false_eq_true, if_false]
      exact ih m h0 (fun y hy => h y (List.mem_cons_of_mem x hy))

/-! ## Field characterizations of `parse` -/

/-- The decoded receipt id depends only on the first `received` child and
the stanza own `id` attribute. -/
theorem parse_receiptId (m0 : QXmppMessage) (el : XNode) :
    (QXmppMessage.parse m0 el).receiptId =
      match firstChildElem el "received" with
      | some r =>
        if r.ns == ns_message_receipts then
          (if (attrOf r "id").isEmpty then attrOf el "id" else attrOf r "id")
        else ""
      | none => "" := by
  unfold QXmppMessage.parse
  cases hcs : chatStateScan el <;>
    simp only [hcs] <;>
    rw [show ∀ r : QXmppMessage × List XNode,
        ({ r.1 with extensions := r.2 } : QXmppMessage).receiptId = r.1.receiptId
      from fun r => rfl] <;>
    rw [xLoop_receiptId] <;>
    simp only [delayScan_receiptId, receiptScan_receiptId, xhtmlScan_id,
      stanzaParse]

/-- The decoded chat state comes from the chat-state scan, the previous
state being kept when no known state name matches. -/
theorem parse_state (m0 : QXmppMessage) (el : XNode) :
    (QXmppMessage.parse m0 el).state =
      match chatStateScan el with
      | some st => st
      | none => m0.state := by
  unfold QXmppMessage.parse
  cases hcs : chatStateScan el <;>
    simp only [hcs] <;>
    rw [show ∀ r : QXmppMessage × List XNode,
        ({ r.1 with extensions := r.2 } : QXmppMessage).state = r.1.state
      from fun r => rfl] <;>
    rw [xLoop_state] <;>
    simp only [delayScan_state, receiptScan_state, xhtmlScan_state, stanzaParse]

theorem findTag_spec (l : List XNode) (t : String) (c : XNode)
    (h : findTag l t = some c) :
    c ∈ l ∧ c.isElem = true ∧ c.tag = t := by
  have h1 := List.mem_of_find?_eq_some h
  have h2 := List.find?_some h
  simp only [Bool.and_eq_true, beq_iff_eq] at h2
  exact ⟨h1, h2.1, h2.2⟩

/-- If every state-named element child sits in a foreign namespace, the
chat-state scan finds nothing. -/
theorem chatStateScan_none (el : XNode)
    (h : ∀ a ∈ childElems el,
      (a.tag = "active" ∨ a.tag = "inactive" ∨ a.tag = "gone" ∨
       a.tag = "composing" ∨ a.tag = "paused") → a.ns ≠ ns_chat_states) :
    chatStateScan el = none := by
  have pred_false : ∀ nm : String,
      (nm = "active" ∨ nm = "inactive" ∨ nm = "gone" ∨ nm = "composing" ∨
       nm = "paused") →
      (match firstChildElem el nm with
        | some c => c.ns == ns_chat_states
        | none => false) = false := by
    intro nm hnm
    cases hf : firstChildElem el nm with
    | none => rfl
    | some a =>
      obtain ⟨hmem, hel, htag⟩ := findTag_spec el.children nm a hf
      have hmem2 : a ∈ childElems el := List.mem_filter.mpr ⟨hmem, hel⟩
      have hns : a.ns ≠ ns_chat_states := by
        apply h a hmem2
        rw [htag]
        exact hnm
      simpa using beq_eq_false_iff_ne.mpr hns
  have p1 := pred_false "active" (by simp)
  have p2 := pred_false "inactive" (by simp)
  have p3 := pred_false "gone" (by simp)
  have p4 := pred_false "composing" (by simp)
  have p5 := pred_false "paused" (by simp)
  simp only [chatStateScan, chat_states, List.find?, p1, p2, p3, p4, p5]

/-- When neither a matching modern `delay` child nor any legacy `x` child
is present, `parse` leaves the timestamp fields untouched. -/
theorem parse_stamp_frame (m0 : QXmppMessage) (el : XNode)
    (hd : ∀ d, firstChildElem el "delay" = some d → d.ns ≠ ns_delayed_delivery)
    (hx : ∀ x ∈ xChildrenOf el, x.ns ≠ ns_legacy_delayed_delivery) :
    (QXmppMessage.parse m0 el).stamp = m0.stamp ∧
      (QXmppMessage.parse m0 el).stampType = m0.stampType := by
  have hds : ∀ m : QXmppMessage, delayScan m el = m :=
    fun m => delayScan_stamp_frame m el hd
  have hxf1 : ∀ m : QXmppMessage, (xLoop m (xChildrenOf el)).1.stamp = m.stamp :=
    fun m => (xLoop_stamp_frame m _ hx).1
  have hxf2 : ∀ m : QXmppMessage,
      (xLoop m (xChildrenOf el)).1.stampType = m.stampType :=
    fun m => (xLoop_stamp_frame m _ hx).2
  unfold QXmppMessage.parse
  cases hcs : chatStateScan el <;>
    simp only [hcs, hds, hxf1, hxf2, receiptScan_stamp, receiptScan_stampType,
      xhtmlScan_stamp, xhtmlScan_stampType, stanzaParse] <;>
    exact ⟨trivial, trivial⟩

/-- On a freshly constructed message, an unparseable modern stamp and
unparseable legacy stamps leave the timestamp invalid. -/
theorem decodeFresh_stamp_none (el : XNode)
    (h1 : ∀ d, firstChildElem el "delay" = some d → d.ns = ns_delayed_delivery →
      datetimeFromString (attrOf d "stamp") = none)
    (h2 : ∀ x ∈ xChildrenOf el, x.ns = ns_legacy_delayed_delivery →
      legacyStampParse (attrOf x "stamp") = none) :
    (decodeFresh el).stamp = none := by
  have hdsn : ∀ m : QXmppMessage, m.stamp = none → (delayScan m el).stamp = none := by
    intro m h0
    unfold delayScan
    cases hfd : firstChildElem el "delay" with
    | none => exact h0
    | some d =>
      by_cases hns : (d.ns == ns_delayed_delivery) = true
      · simp only [hns, if_true]
        exact h1 d hfd (by rwa [beq_iff_eq] at hns)
      · simp only [hns, Bool.false_eq_true, if_false]
        exact h0
  unfold decodeFresh QXmppMessage.parse
  cases hcs : chatStateScan el <;>
    simp only [hcs] <;>
    rw [show ∀ r : QXmppMessage × List XNode,
        ({ r.1 with extensions := r.2 } : QXmppMessage).stamp = r.1.stamp
      from fun r => rfl] <;>
    exact xLoop_stamp_none _ _
      (by
        simp only []
        apply hdsn
        simp [receiptScan_stamp, xhtmlScan_stamp, stanzaParse, freshMessage,
          QXmppMessage.construct]) h2

/-- When the timestamp is absent the encoder ignores the stamp type. -/
theorem toXml_stampType_irrelevant (m : QXmppMessage) (d : StampType)
    (hs : m.stamp = none) :
    QXmppMessage.toXml { m with stampType := d } = m.toXml := by
  unfold QXmppMessage.toXml attrsPart contentPart hasChildContent subjectPart
    bodyPart threadPart errorPart statePart xhtmlPart stampPart receivedPart
    requestPart attentionPart extsPart
  simp only [hs]

/-! ## The claims -/

/-- C1: for every XML stanza built only from the extensions this codec
understands — the canonical stanza tree `encodeTree m` of a well-formed
message, whose byte serialization is `saveNode (encodeTree m)` — encoding
the result of decoding that stanza reproduces the original stanza byte
for byte. -/
theorem c1_decode_encode_roundtrip (m : QXmppMessage) (hwf : wfMsg m) :
    (decodeFresh (encodeTree m)).toXml = saveNode (encodeTree m) := by
  rw [decodeFresh, parse_encodeTree m hwf, saveNode_encodeTree]
  cases hs : m.stamp with
  | some t =>
    rw [← hs]
    rw [show (match m.stamp with
        | none => StampType.DelayedDelivery
        | some _ => m.stampType) = m.stampType from by rw [hs]]
  | none =>
    rw [← hs]
    exact toXml_stampType_irrelevant m _ hs

/-- Witness for C1 at a message exercising every understood extension. -/
theorem c1_witness :
    wfMsg exMsgFull ∧
      (decodeFresh (encodeTree exMsgFull)).toXml = saveNode (encodeTree exMsgFull) :=
  ⟨by decide, c1_decode_encode_roundtrip exMsgFull (by decide)⟩

/-- C2 counterexample: a directly constructed message has type `Chat`,
not `Normal`, already for the default constructor arguments. -/
theorem c2_counterexample :
    (QXmppMessage.construct "" "" "" "").type = MsgType.Chat ∧
      MsgType.Chat ≠ MsgType.Normal :=
  ⟨rfl, by decide⟩

/-- C2 (amended): every directly constructed (not decoded) message value
has type equal to `Chat` — the default produced by the constructor. -/
theorem c2_construct_type (from_ to_ body thread : String) :
    (QXmppMessage.construct from_ to_ body thread).type = MsgType.Chat :=
  rfl

/-- C3: an input element containing both a modern `delay` child with a
parseable stamp and a (single) legacy `x` delay child with a parseable
stamp decodes to the legacy timestamp and the legacy kind, because the
`x` scan runs after the `delay` check. -/
theorem c3_legacy_overrides_modern (el d x : XNode) (t1 t2 : UtcDT)
    (hd : d ∈ childElems el) (hdt : d.tag = "delay")
    (hdn : d.ns = ns_delayed_delivery)
    (hds : datetimeFromString (attrOf d "stamp") = some t1)
    (hxs : (xChildrenOf el).filter
      (fun c => c.ns == ns_legacy_delayed_delivery) = [x])
    (hxp : legacyStampParse (attrOf x "stamp") = some t2) :
    (decodeFresh el).stamp = some t2 ∧
      (decodeFresh el).stampType = StampType.LegacyDelayedDelivery := by
  have key : ∀ m0 : QXmppMessage,
      (xLoop m0 (xChildrenOf el)).1.stamp = some t2 ∧
      (xLoop m0 (xChildrenOf el)).1.stampType =
        StampType.LegacyDelayedDelivery := by
    intro m0
    rw [xLoop_fst, hxs]
    constructor <;> simp [hxp]
  unfold decodeFresh QXmppMessage.parse
  cases hcs : chatStateScan (el) <;>
    simp only [hcs] <;>
    exact ⟨(key _).1, (key _).2⟩

/-- Witness for C3 at a stanza carrying both delay encodings. -/
theorem c3_witness :
    (decodeFresh exElDual).stamp = some ⟨2009, 1, 10, 8, 21, 5⟩ ∧
      (decodeFresh exElDual).stampType = StampType.LegacyDelayedDelivery :=
  c3_legacy_overrides_modern exElDual exDelayChild exXChild
    ⟨2002, 9, 10, 23, 8, 25⟩ ⟨2009, 1, 10, 8, 21, 5⟩
    (show exDelayChild ∈ [exDelayChild, exXChild] from List.mem_cons_self _ _)
    rfl rfl (by decide) rfl (by decide)

/-- C4: a `delay` child (modern or legacy encoding) whose `stamp`
attribute cannot be parsed leaves the decoded timestamp absent, never a
fallback value; and the encoder emits no `delay`/`x` element when the
timestamp is absent, so an unparseable stamp never reappears on encode. -/
theorem c4_unparseable_stamp_absent :
    (∀ el : XNode,
      (∀ d, firstChildElem el "delay" = some d → d.ns = ns_delayed_delivery →
        datetimeFromString (attrOf d "stamp") = none) →
      (∀ x ∈ xChildrenOf el, x.ns = ns_legacy_delayed_delivery →
        legacyStampParse (attrOf x "stamp") = none) →
      (decodeFresh el).stamp = none) ∧
    (∀ m : QXmppMessage, m.stamp = none → stampPart m = "") := by
  constructor
  · exact decodeFresh_stamp_none
  · intro m h
    unfold stampPart
    rw [h]

/-- Witness for C4 at a stanza with unparseable stamps and at a message
without a timestamp. -/
theorem c4_witness :
    (decodeFresh exElBadStamps).stamp = none ∧ stampPart freshMessage = "" :=
  ⟨c4_unparseable_stamp_absent.1 exElBadStamps
    (by
      intro d hd hns
      have hd2 : some (XNode.elem "delay" ns_delayed_delivery
          [("stamp", "oops")] []) = some d := hd
      injection hd2 with h
      rw [← h]
      decide)
    (by decide),
   c4_unparseable_stamp_absent.2 freshMessage rfl⟩

/-- C5 counterexample: a child element the codec does not interpret and
that is not named `x` is dropped: it is not stored as an opaque extension
and does not reappear on encode. -/
theorem c5_counterexample :
    (decodeFresh exElCustom).extensions = [] ∧
      (decodeFresh exElCustom).toXml = "<message type=\"normal\"/>" :=
  ⟨rfl, rfl⟩

/-- C5 (amended): exactly the child elements named `x` outside the legacy
delayed-delivery namespace are stored as opaque extensions, in encounter
order, and the encoder re-emits the stored extensions verbatim, in order,
directly before the closing tag; other uninterpreted children are
dropped. -/
theorem c5_x_extensions_passthrough :
    (∀ (m0 : QXmppMessage) (el : XNode),
      (QXmppMessage.parse m0 el).extensions =
        (xChildrenOf el).filter (fun x => !(x.ns == ns_legacy_delayed_delivery))) ∧
    (∀ m : QXmppMessage, m.extensions ≠ [] →
      ∃ pre, m.toXml = pre ++ (saveNodes m.extensions ++ "</message>")) := by
  constructor
  · intro m0 el
    unfold QXmppMessage.parse
    cases hcs : chatStateScan el <;>
      simp only [hcs] <;>
      exact xLoop_snd _ _
  · intro m hne
    refine ⟨"<message" ++ attrsPart m ++ ">" ++
      (subjectPart m ++ bodyPart m ++ threadPart m ++ errorPart m ++
       statePart m ++ xhtmlPart m ++ stampPart m ++ receivedPart m ++
       requestPart m ++ attentionPart m), ?_⟩
    have hcc : hasChildContent m = true := by
      simp [hasChildContent, List.isEmpty_eq_false.mpr hne]
    unfold QXmppMessage.toXml
    rw [hcc]
    unfold contentPart extsPart
    apply String.ext
    simp [String.data_append]

/-- Witness for C5 at a stanza with a custom non-legacy `x` child. -/
theorem c5_witness :
    (QXmppMessage.parse freshMessage exElXCustom).extensions =
      (xChildrenOf exElXCustom).filter
        (fun x => !(x.ns == ns_legacy_delayed_delivery)) ∧
    ∃ pre, (decodeFresh exElXCustom).toXml =
      pre ++ (saveNodes (decodeFresh exElXCustom).extensions ++ "</message>") :=
  ⟨c5_x_extensions_passthrough.1 freshMessage exElXCustom,
   c5_x_extensions_passthrough.2 (decodeFresh exElXCustom)
    (by
      rw [show (decodeFresh exElXCustom).extensions =
        [XNode.elem "x" "urn:custom" [("k", "v")] []] from rfl]
      simp)⟩

/-- C6 counterexample: an element that does contain a `received` child in
the message-receipts namespace (with non-empty id `b`), but whose first
child named `received` is in a foreign namespace, decodes to a cleared
receipt id, not to `b`. -/
theorem c6_counterexample :
    (decodeFresh exElRecvForeign).receiptId = "" ∧ ("" : String) ≠ "b" :=
  ⟨rfl, by decide⟩

/-- C6 (amended): the decoded receipt id is governed by the first child
named `received`: when that child is in the message-receipts namespace its
non-empty `id` attribute is taken, an empty `id` attribute falls back to
the stanza own `id`; in every other case (no `received` child, or a first
`received` child in a foreign namespace) the receipt id is cleared. -/
theorem c6_received_first_child (m0 : QXmppMessage) (el : XNode) :
    (QXmppMessage.parse m0 el).receiptId =
      match firstChildElem el "received" with
      | some r =>
        if r.ns == ns_message_receipts then
          (if (attrOf r "id").isEmpty then attrOf el "id" else attrOf r "id")
        else ""
      | none => "" :=
  parse_receiptId m0 el

/-- C7 counterexample: an element with a child named `composing` in the
chat-states namespace, preceded by a same-named child in a foreign
namespace, decodes to `None`, not `Composing`. -/
theorem c7_counterexample :
    (decodeFresh exElComposingForeign).state = ChatState.None ∧
      ChatState.None ≠ ChatState.Composing :=
  ⟨rfl, by decide⟩

/-- C7 (amended): decoding yields `Composing` when the first child named
`composing` is in the chat-states namespace and no earlier state name
(`active`, `inactive`, `gone`) has its first same-named child in that
namespace; and for every element whose state-named children are all in
foreign namespaces, or with no state-named child at all, decoding a fresh
message yields `None`. -/
theorem c7_chat_state_scan :
    (∀ (el : XNode) (c : XNode),
      firstChildElem el "composing" = some c → c.ns = ns_chat_states →
      (∀ n, n = "active" ∨ n = "inactive" ∨ n = "gone" →
        ∀ a, firstChildElem el n = some a → a.ns ≠ ns_chat_states) →
      (decodeFresh el).state = ChatState.Composing) ∧
    (∀ el : XNode,
      (∀ a ∈ childElems el,
        (a.tag = "active" ∨ a.tag = "inactive" ∨ a.tag = "gone" ∨
         a.tag = "composing" ∨ a.tag = "paused") → a.ns ≠ ns_chat_states) →
      (decodeFresh el).state = ChatState.None) := by
  constructor
  · intro el c hc hcns hothers
    have hscan : chatStateScan el = some ChatState.Composing := by
      have pa : (match firstChildElem el "active" with
          | some cc => cc.ns == ns_chat_states
          | none => false) = false := by
        cases hfa : firstChildElem el "active" with
        | none => rfl
        | some a =>
          simpa using beq_eq_false_iff_ne.mpr
            (hothers "active" (by simp) a hfa)
      have pi2 : (match firstChildElem el "inactive" with
          | some cc => cc.ns == ns_chat_states
          | none => false) = false := by
        cases hfa : firstChildElem el "inactive" with
        | none => rfl
        | some a =>
          simpa using beq_eq_false_iff_ne.mpr
            (hothers "inactive" (by simp) a hfa)
      have pg : (match firstChildElem el "gone" with
          | some cc => cc.ns == ns_chat_states
          | none => false) = false := by
        cases hfa : firstChildElem el "gone" with
        | none => rfl
        | some a =>
          simpa using beq_eq_false_iff_ne.mpr
            (hothers "gone" (by simp) a hfa)
      have pc : (match firstChildElem el "composing" with
          | some cc => cc.ns == ns_chat_states
          | none => false) = true := by
        rw [hc]
        simpa using hcns
      simp only [chatStateScan, chat_states, List.find?, pa, pi2, pg, pc]
    rw [decodeFresh, parse_state, hscan]
  · intro el h
    rw [decodeFresh, parse_state, chatStateScan_none el h]
    rfl

/-- Witness for C7 at a genuine `composing` stanza and at a stanza whose
only state-named child is foreign. -/
theorem c7_witness :
    (decodeFresh exElComposing).state = ChatState.Composing ∧
      (decodeFresh exElForeignActive).state = ChatState.None :=
  ⟨c7_chat_state_scan.1 exElComposing
      (XNode.elem "composing" ns_chat_states [] []) rfl rfl
      (by
        intro n hn a ha
        rcases hn with rfl | rfl | rfl <;>
          simp [exElComposing, firstChildElem, findTag, List.find?, XNode.isElem,
            XNode.tag, XNode.children] at ha),
   c7_chat_state_scan.2 exElForeignActive (by decide)⟩

/-- C8 counterexample: with attention requested and receipt id `msg1`,
both children are emitted but `received` precedes `attention` in the
output, contrary to the claimed relative order. -/
theorem c8_counterexample :
    precedesIn "<attention" "<received" (QXmppMessage.toXml exMsgAttnRecv) = false ∧
      precedesIn "<received" "<attention" (QXmppMessage.toXml exMsgAttnRecv) = true := by
  constructor <;> rfl

/-- C8 (amended): for every message with `attentionRequested = true` and
`receiptForId = "msg1"`, the encoder emits both a `received` child
(message-receipts namespace, id `msg1`) and an `attention` child
(attention namespace), with the `received` child preceding the
`attention` child in the output. -/
theorem c8_received_before_attention (m : QXmppMessage)
    (hatt : m.attentionRequested = true) (hrid : m.receiptId = "msg1") :
    ∃ a b c, m.toXml =
      a ++ ("<received xmlns=\"urn:xmpp:receipts\" id=\"msg1\"/>" ++
        (b ++ ("<attention xmlns=\"urn:xmpp:attention\"/>" ++ c))) := by
  refine ⟨"<message" ++ attrsPart m ++ ">" ++
    (subjectPart m ++ bodyPart m ++ threadPart m ++ errorPart m ++
     statePart m ++ xhtmlPart m ++ stampPart m),
    requestPart m, extsPart m ++ "</message>", ?_⟩
  have hcc : hasChildContent m = true := by
    simp [hasChildContent, hatt]
  have hrec : receivedPart m =
      "<received xmlns=\"urn:xmpp:receipts\" id=\"msg1\"/>" := by
    unfold receivedPart
    rw [hrid]
    rfl
  have hattn : attentionPart m = "<attention xmlns=\"urn:xmpp:attention\"/>" := by
    unfold attentionPart
    rw [hatt]
    rfl
  unfold QXmppMessage.toXml
  rw [hcc]
  unfold contentPart
  rw [hrec, hattn]
  apply String.ext
  simp [String.data_append]

/-- Witness for C8 at a concrete message with both features enabled. -/
theorem c8_witness :
    exMsgAttnRecv.attentionRequested = true ∧ exMsgAttnRecv.receiptId = "msg1" ∧
    ∃ a b c, exMsgAttnRecv.toXml =
      a ++ ("<received xmlns=\"urn:xmpp:receipts\" id=\"msg1\"/>" ++
        (b ++ ("<attention xmlns=\"urn:xmpp:attention\"/>" ++ c))) :=
  ⟨rfl, rfl, c8_received_before_attention exMsgAttnRecv rfl rfl⟩

/-- C9: requesting a receipt on a message without an id assigns a fresh
(non-empty) id; requesting one on a message that has an id leaves the id
unchanged; withdrawing the request never changes the id. -/
theorem c9_setReceiptRequested_id (m : QXmppMessage) :
    (m.id = "" → (m.setReceiptRequested true).id ≠ "") ∧
    (m.id ≠ "" → (m.setReceiptRequested true).id = m.id) ∧
    (m.setReceiptRequested false).id = m.id := by
  refine ⟨?_, ?_, ?_⟩
  · intro h0
    unfold QXmppMessage.setReceiptRequested generateAndSetNextId
    simp [h0]
    simp only [show ("" : String).isEmpty = true from rfl, if_true]
    simp
  · intro h0
    unfold QXmppMessage.setReceiptRequested generateAndSetNextId
    simp [String.isEmpty_iff, h0]
  · rfl

/-- Witness for C9 for a message without and a message with an id. -/
theorem c9_witness :
    (freshMessage.setReceiptRequested true).id ≠ "" ∧
    (exMsgWithId.setReceiptRequested true).id = exMsgWithId.id ∧
    (freshMessage.setReceiptRequested false).id = freshMessage.id :=
  ⟨(c9_setReceiptRequested_id freshMessage).1 rfl,
   (c9_setReceiptRequested_id exMsgWithId).2.1 (by decide),
   (c9_setReceiptRequested_id freshMessage).2.2⟩

/-- C10: `parse` does not reset the chat-state or timestamp fields: when
the element has no state-named child in the chat-states namespace the
previous chat state survives, and when it has no modern `delay` child and
no legacy `x` delay child the previous timestamp and kind survive — so
the no-match defaults hold only for a freshly constructed message. -/
theorem c10_parse_no_reset (m0 : QXmppMessage) (el : XNode) :
    ((∀ a ∈ childElems el,
        (a.tag = "active" ∨ a.tag = "inactive" ∨ a.tag = "gone" ∨
         a.tag = "composing" ∨ a.tag = "paused") → a.ns ≠ ns_chat_states) →
      (QXmppMessage.parse m0 el).state = m0.state) ∧
    ((∀ a ∈ childElems el, ¬(a.tag = "delay" ∧ a.ns = ns_delayed_delivery)) →
     (∀ a ∈ childElems el, ¬(a.tag = "x" ∧ a.ns = ns_legacy_delayed_delivery)) →
      (QXmppMessage.parse m0 el).stamp = m0.stamp ∧
        (QXmppMessage.parse m0 el).stampType = m0.stampType) := by
  constructor
  · intro h
    rw [parse_state, chatStateScan_none el h]
  · intro hdelay hlegacy
    apply parse_stamp_frame
    · intro d hd
      obtain ⟨hmem, hel, htag⟩ := findTag_spec el.children "delay" d hd
      intro hns
      exact hdelay d (List.mem_filter.mpr ⟨hmem, hel⟩) ⟨htag, hns⟩
    · intro x hx
      have hmem : x ∈ el.children := List.mem_of_mem_filter hx
      have hprop := List.of_mem_filter hx
      simp only [Bool.and_eq_true, beq_iff_eq] at hprop
      intro hns
      exact hlegacy x (List.mem_filter.mpr ⟨hmem, hprop.1⟩) ⟨hprop.2, hns⟩

/-- Witness for C10 at a message with state and stamp set, parsing an
element without chat-state or delay children. -/
theorem c10_witness :
    (QXmppMessage.parse exMsgStateStamp exElBody).state = exMsgStateStamp.state ∧
    (QXmppMessage.parse exMsgStateStamp exElBody).stamp = exMsgStateStamp.stamp ∧
    (QXmppMessage.parse exMsgStateStamp exElBody).stampType =
      exMsgStateStamp.stampType :=
  ⟨(c10_parse_no_reset exMsgStateStamp exElBody).1 (by decide),
   ((c10_parse_no_reset exMsgStateStamp exElBody).2 (by decide) (by decide)).1,
   ((c10_parse_no_reset exMsgStateStamp exElBody).2 (by decide) (by decide)).2⟩

end QXmpp
